import Mathlib

/-!
# Verification of the ubiquiti-viewer device-catalog query pipeline

A shallow embedding, in Lean, of the pure core of the `ubiquiti-viewer`
repository: the search matcher and autocomplete ranking
(`src/utils/deviceFilters.ts`), the icon-URL selection
(`src/utils/deviceFilters.ts`, second document), the search-query sanitizer
(`src/utils/securityUtils.ts`), the URL-state synchronizer
(`src/hooks/useDeviceFilters.ts`), the schema validator
(`src/utils/validationUtils.ts` with `validationSchemas.ts`), and the
time-boxed device cache (`src/services/deviceService.ts`).

JavaScript strings are modelled as Lean `String`s (sequences of code points);
JavaScript string operations (`trim`, `toLowerCase`, `includes`, `split`,
`join`, the truthiness of `||` and `?.`) are given explicit executable
models below.  Asynchronous/stateful code (the cache service) is modelled by
explicit state passing, with the wall clock and the network outcome passed in
as parameters.
-/

namespace UbiquitiViewer

/-! ## JavaScript string primitives -/

/-- The whitespace characters recognised by the model of JavaScript
`trim` / `\s` (ASCII whitespace; the exotic Unicode space characters are not
modelled). -/
def jsIsSpace (c : Char) : Bool :=
  c = ' ' || c = '\t' || c = '\n' || c = '\r' || c = '\x0b' || c = '\x0c'

/-- Model of JavaScript `String.prototype.toLowerCase` (ASCII case folding). -/
def jsToLower (s : String) : String :=
  ⟨s.data.map Char.toLower⟩

/-- Model of JavaScript `String.prototype.trim`: strip leading and trailing
whitespace. -/
def jsTrim (s : String) : String :=
  ⟨((s.data.dropWhile jsIsSpace).reverse.dropWhile jsIsSpace).reverse⟩

/-- `isPrefixList p l` holds when the character list `p` is an initial
segment of `l` (model of `String.prototype.startsWith` at the list level). -/
def isPrefixList : List Char → List Char → Bool
  | [], _ => true
  | _ :: _, [] => false
  | a :: as, b :: bs => a = b && isPrefixList as bs

/-- `containsList needle hay`: the character list `needle` occurs
contiguously inside `hay` (model of `String.prototype.includes` at the list
level). -/
def containsList (needle : List Char) : List Char → Bool
  | [] => isPrefixList needle []
  | l@(_ :: t) => isPrefixList needle l || containsList needle t

/-- Model of JavaScript `haystack.includes(needle)`. -/
def jsIncludes (haystack needle : String) : Bool :=
  containsList needle.data haystack.data

/-- Model of JavaScript `s.startsWith(p)`. -/
def jsStartsWith (s p : String) : Bool :=
  isPrefixList p.data s.data

/-- Model of JavaScript `Array.prototype.join` with a one-character
separator, at the level of character lists. -/
def joinChars (sep : Char) : List String → List Char
  | [] => []
  | [x] => x.data
  | x :: xs => x.data ++ sep :: joinChars sep xs

/-- `xs.join(sep)` for a one-character separator. -/
def jsJoin (sep : Char) (xs : List String) : String :=
  ⟨joinChars sep xs⟩

/-- One step of splitting on a separator character: accumulate the current
token until the separator is hit. -/
def splitCharsAux (sep : Char) : List Char → List Char → List String
  | [], acc => [⟨acc.reverse⟩]
  | c :: cs, acc =>
    if c = sep then ⟨acc.reverse⟩ :: splitCharsAux sep cs []
    else splitCharsAux sep cs (c :: acc)

/-- Model of JavaScript `s.split(sep)` for a one-character separator:
`"".split(",") = [""]`, `"a,b".split(",") = ["a", "b"]`. -/
def jsSplit (s : String) (sep : Char) : List String :=
  splitCharsAux sep s.data []

/-- JavaScript `a || b` for strings: `b` when `a` is falsy (empty), else
`a`. -/
def jsOr (a b : String) : String :=
  if a = "" then b else a

/-! ## Data model (`src/types/device.ts`)

The Lean `Device` models the runtime shape the defensive code is written
against: fields that the source reads through `?.` or guards with `||` are
`Option`s, so that the claims range over every value the code actually
handles.  The heterogeneous optional specification blocks (`unifi`, `uisp`,
`compliance`, …) are carried as raw JSON values, exactly as the TypeScript
code carries them (its `as` casts assert, but do not check, their shape). -/

/-- An untyped JSON value: the decoded response body before validation.
JavaScript numbers are modelled as integers (every claim about this code
involves only integral values). -/
inductive JValue where
  | str (s : String)
  | num (n : Int)
  | bool (b : Bool)
  | null
  | arr (elems : List JValue)
  | obj (fields : List (String × JValue))

/-- `DeviceProduct`: product name and abbreviation.  (The source field is
called `abbrev`, which is a Lean keyword, hence `abbrv` here.) -/
structure DeviceProduct where
  abbrv : String
  name : String
deriving DecidableEq

/-- `DeviceLine`: product-line (category) id and display name. -/
structure DeviceLine where
  id : String
  name : String
deriving DecidableEq

/-- `DeviceIcon`: icon id plus the declared `[width, height]` resolution
list. -/
structure DeviceIcon where
  id : String
  resolutions : List (List Int)
deriving DecidableEq

/-- `DeviceImages`: product-photo identifiers. -/
structure DeviceImages where
  default : String
  nopadding : String
  topology : String
deriving DecidableEq

/-- A `triplets` entry: optional `k1`/`k2`/`k3` identification keys. -/
structure Triplet where
  k1 : Option String
  k2 : Option String
  k3 : Option String
deriving DecidableEq

/-- The device record (`src/types/device.ts`, `Device`).  Fields the code
dereferences with `?.` are optional here; the loosely-typed optional blocks
are stored as raw JSON values. -/
structure Device where
  id : String
  sku : Option String
  sysid : Option String
  sysids : List String
  guids : List String
  shortnames : Option (List String)
  triplets : List Triplet
  product : Option DeviceProduct
  line : Option DeviceLine
  icon : Option DeviceIcon
  images : Option DeviceImages
  btle : Option JValue
  compliance : Option JValue
  deviceType : Option String
  jrf : Option (List String)
  minAdoptVersion : Option JValue
  unifi : Option JValue
  uisp : Option JValue
  videos : Option JValue
  isARSupported : Option Bool

/-- A convenient all-absent device for building concrete test records. -/
def emptyDevice : Device where
  id := ""
  sku := none
  sysid := none
  sysids := []
  guids := []
  shortnames := none
  triplets := []
  product := none
  line := none
  icon := none
  images := none
  btle := none
  compliance := none
  deviceType := none
  jrf := none
  minAdoptVersion := none
  unifi := none
  uisp := none
  videos := none
  isARSupported := none

/-! ## Search matcher (`src/utils/deviceFilters.ts`) -/

/-- `device.sysid || device.id || ""`: the identifier contribution to the
searchable text. -/
def searchId (device : Device) : String :=
  jsOr (jsOr (device.sysid.getD "") device.id) ""

/-- The field list
`[product?.name || "", product?.abbrev || "", line?.name || "", sku || "",
sysid || id || "", ...(shortnames || [])]` that `matchesSearchQuery` joins
with spaces. -/
def searchableFieldList (device : Device) : List String :=
  [ jsOr ((device.product.map DeviceProduct.name).getD "") ""
  , jsOr ((device.product.map DeviceProduct.abbrv).getD "") ""
  , jsOr ((device.line.map DeviceLine.name).getD "") ""
  , jsOr ((device.sku).getD "") ""
  , searchId device
  ] ++ device.shortnames.getD []

/-- `matchesSearchQuery(device, query)` (`deviceFilters.ts:13-29`): trim and
lower-case the query; an empty query matches everything; otherwise test
substring containment against the lower-cased space-joined field list. -/
def matchesSearchQuery (device : Device) (query : String) : Bool :=
  let q := jsToLower (jsTrim query)
  if q = "" then true
  else jsIncludes (jsToLower (jsJoin ' ' (searchableFieldList device))) q

/-- `filterDevices(devices, query)` (`deviceFilters.ts:34-37`). -/
def filterDevices (devices : List Device) (query : String) : List Device :=
  if devices.length = 0 then []
  else devices.filter (fun device => matchesSearchQuery device query)

/-! ## Autocomplete suggestions (`src/utils/deviceFilters.ts:41-106`) -/

/-- An autocomplete suggestion: display text and short-form label. -/
structure AutocompleteSuggestion where
  text : String
  shortname : String
deriving DecidableEq

/-- The three match tiers of the suggestion ranking.  (`pfx` is the
"starts-with" tier.) -/
inductive MatchTier where
  | exact
  | pfx
  | contains
deriving DecidableEq

/-- The device name used for suggestions: `device.product?.name || ""`. -/
def deviceName (device : Device) : String :=
  jsOr ((device.product.map DeviceProduct.name).getD "") ""

/-- The lower-cased per-device field list scanned by the suggestion loop:
`[lowerName, abbrev, line, sku, id, shortnames.join(" ")]`. -/
def suggestionFields (device : Device) : List String :=
  [ jsToLower (deviceName device)
  , jsOr ((device.product.map (fun p => jsToLower p.abbrv)).getD "") ""
  , jsOr ((device.line.map (fun l => jsToLower l.name)).getD "") ""
  , jsOr ((device.sku.map jsToLower).getD "") ""
  , jsToLower (searchId device)
  , jsToLower (jsJoin ' ' (device.shortnames.getD []))
  ]

/-- The inner `for (const field of fields)` loop of
`generateAutocompleteSuggestions`: empty fields are skipped; an exact field
match wins immediately (`break`); a starts-with match upgrades the running
best to the `pfx` tier; a contains match sets the `contains` tier unless the
best is already `pfx`. -/
def bestMatchLoop (q : String) : List String → Option MatchTier → Option MatchTier
  | [], best => best
  | f :: fs, best =>
    if f = "" then bestMatchLoop q fs best
    else if f = q then some .exact
    else if jsStartsWith f q then bestMatchLoop q fs (some .pfx)
    else if jsIncludes f q && !(best = some .pfx) then
      bestMatchLoop q fs (some .contains)
    else bestMatchLoop q fs best

/-- The best match tier of one device against the (already trimmed and
lower-cased) query. -/
def bestMatch (device : Device) (q : String) : Option MatchTier :=
  bestMatchLoop q (suggestionFields device) none

/-- The suggestion built for a matching device:
`text = name`, `shortname = shortnames?.[0] || product?.abbrev || ""`. -/
def suggestionOf (device : Device) : AutocompleteSuggestion where
  text := deviceName device
  shortname :=
    jsOr (jsOr (((device.shortnames.getD []).head?).getD "")
               ((device.product.map DeviceProduct.abbrv).getD "")) ""

/-- The `devices.forEach` accumulation of `generateAutocompleteSuggestions`,
as a recursion carrying the `seen` set of lower-cased names already emitted.
Returns the `exactMatches`, `prefixMatches` and `containsMatches` lists. -/
def suggestLoop (q : String) :
    List Device → List String →
    List AutocompleteSuggestion × List AutocompleteSuggestion × List AutocompleteSuggestion
  | [], _ => ([], [], [])
  | device :: rest, seen =>
    let name := deviceName device
    if name = "" then suggestLoop q rest seen
    else
      let lowerName := jsToLower name
      match bestMatch device q with
      | none => suggestLoop q rest seen
      | some tier =>
        if seen.contains lowerName then suggestLoop q rest seen
        else
          let r := suggestLoop q rest (lowerName :: seen)
          match tier with
          | .exact => (suggestionOf device :: r.1, r.2.1, r.2.2)
          | .pfx => (r.1, suggestionOf device :: r.2.1, r.2.2)
          | .contains => (r.1, r.2.1, suggestionOf device :: r.2.2)

/-- `generateAutocompleteSuggestions(devices, query)`
(`deviceFilters.ts:41-106`): queries shorter than 2 characters (after
trimming) yield nothing; otherwise the exact, starts-with and contains tiers
are concatenated in priority order and truncated to 8 entries. -/
def generateAutocompleteSuggestions (devices : List Device) (query : String) :
    List AutocompleteSuggestion :=
  let q := jsToLower (jsTrim query)
  if q = "" || q.length < 2 then []
  else
    let r := suggestLoop q devices []
    ((r.1 ++ r.2.1) ++ r.2.2).take 8

/-! ## Icon URL selection (`src/utils/deviceFilters.ts`, second document) -/

/-- Display contexts for icon resolution selection. -/
inductive IconContext where
  | small
  | medium
  | large
deriving DecidableEq

/-- `ICON_CONTEXT_RESOLUTIONS`: the preferred resolutions per context. -/
def ICON_CONTEXT_RESOLUTIONS : IconContext → List Int
  | .small => [128, 256]
  | .medium => [64, 128]
  | .large => [128, 256]

/-- `preferredSizes[0]`: the preferred width of a context (the first entry of
its preferred-resolution list). -/
def preferredWidth (context : IconContext) : Int :=
  (ICON_CONTEXT_RESOLUTIONS context).headD 0

/-- One `reduce` step of the closest-larger-size selection:
`Math.abs(curr[0] - preferred) < Math.abs(prev[0] - preferred) ? curr : prev`
(`undefined` widths compare false, keeping `prev`). -/
def nearerTo (preferred : Int) (prev curr : List Int) : List Int :=
  match curr.head?, prev.head? with
  | some cw, some pw =>
    if (cw - preferred).natAbs < (pw - preferred).natAbs then curr else prev
  | _, _ => prev

/-- `selectResolution(resolutions, context)` (`deviceFilters.ts:175-198`):
first an exact width match, then the closest width at-or-above the preferred
width, then the last available resolution (or `[32, 32]` when the list is
empty). -/
def selectResolution (resolutions : List (List Int)) (context : IconContext) :
    List Int :=
  let preferredSize := preferredWidth context
  match resolutions.find? (fun r => r.head? == some preferredSize) with
  | some exactMatch => exactMatch
  | none =>
    let largerSizes := resolutions.filter (fun r =>
      match r.head? with
      | some w => decide (preferredSize ≤ w)
      | none => false)
    match largerSizes with
    | first :: restLarger => restLarger.foldl (nearerTo preferredSize) first
    | [] => (resolutions.getLast?).getD [32, 32]

/-- `device.images?.default`, defaulting to the falsy `""`. -/
def imagesDefault (device : Device) : String :=
  (device.images.map DeviceImages.default).getD ""

/-- `device.icon?.resolutions`, defaulting to the empty list (so that the
truthiness test `device.icon?.resolutions?.length` becomes nonemptiness). -/
def iconResolutions (device : Device) : List (List Int) :=
  (device.icon.map DeviceIcon.resolutions).getD []

/-- `device.icon?.id`. -/
def iconId (device : Device) : String :=
  (device.icon.map DeviceIcon.id).getD ""

/-- String interpolation of a possibly-missing array entry (an out-of-range
JavaScript index interpolates as `"undefined"`). -/
def showWidth : Option Int → String
  | some n => toString n
  | none => "undefined"

/-- `getIconUrl(device, context)` (`deviceFilters.ts:223-247`): the product
photo URL when `images.default` is set, else the glyph icon URL with the
selected `width x height`, else the placeholder.  The source memoizes the
result in `urlCache` keyed by `device.id` and the context; the model is the
pure computation being cached. -/
def getIconUrl (device : Device) (context : IconContext) : String :=
  if imagesDefault device ≠ "" then
    "https://images.svc.ui.com/?u=https://static.ui.com/fingerprint/ui/images/"
      ++ device.id ++ "/default/" ++ imagesDefault device ++ ".png&w="
      ++ toString (preferredWidth context) ++ "&q=100&fmt=png"
  else if (iconResolutions device).length ≠ 0 then
    let wh := selectResolution (iconResolutions device) context
    "https://static.ui.com/fingerprint/ui/icons/" ++ iconId device ++ "_"
      ++ showWidth wh.head? ++ "x" ++ showWidth (wh.get? 1) ++ ".png"
  else "/placeholder-icon.png"

/-! ## Search-query sanitizer (`src/utils/securityUtils.ts:211-246`) -/

/-- Models `DOMPurify.sanitize` with `ALLOWED_TAGS: []` on the inputs this
pipeline feeds it: markup between angle brackets is removed (`inTag` is true
while between `<` and `>`), plain text passes through unchanged.  (The
library's HTML parsing of malformed markup and entity re-encoding are not
modelled; no claim depends on them.) -/
def stripTagsScan : List Char → Bool → List Char
  | [], _ => []
  | c :: rest, true =>
    if c = '>' then stripTagsScan rest false else stripTagsScan rest true
  | c :: rest, false =>
    if c = '<' then stripTagsScan rest true else c :: stripTagsScan rest false

/-- The DOMPurify text sanitization step as used by `sanitizeSearchQuery`. -/
def domPurifySanitize (s : String) : String :=
  ⟨stripTagsScan s.data false⟩

/-- The alternation of
`/\b(and|or|not|union|select|insert|update|delete|drop|create|alter)\b/gi`,
in the source's order. -/
def sqlKeywords : List String :=
  ["and", "or", "not", "union", "select", "insert", "update", "delete",
   "drop", "create", "alter"]

/-- A word character in the sense of the regex `\b` boundary:
`[A-Za-z0-9_]`. -/
def isWordChar (c : Char) : Bool :=
  c.isAlpha || c.isDigit || c = '_'

/-- Does the keyword (given lower-cased) match case-insensitively at the head
of the input, with a word boundary after it? -/
def matchesKeyword : List Char → List Char → Bool
  | [], [] => true
  | [], c :: _ => !isWordChar c
  | _ :: _, [] => false
  | k :: ks, c :: cs => Char.toLower c = k && matchesKeyword ks cs

/-- Try the keyword alternation in order at the current position; returns the
length of the match. -/
def tryKeywords : List String → List Char → Option Nat
  | [], _ => none
  | w :: ws, l => if matchesKeyword w.data l then some w.data.length else tryKeywords ws l

/-- The global-replace scan for the SQL-keyword regex.  `skip > 0` means we
are inside a matched keyword being deleted; `bnd` records whether a `\b`
boundary precedes the current position (the previous character was not a word
character, or we are at the start). -/
def removeSqlScan : List Char → Nat → Bool → List Char
  | [], _, _ => []
  | c :: cs, Nat.succ n, _ => removeSqlScan cs n (!isWordChar c)
  | c :: cs, 0, bnd =>
    if bnd then
      match tryKeywords sqlKeywords (c :: cs) with
      | some n => removeSqlScan cs (n - 1) (!isWordChar c)
      | none => c :: removeSqlScan cs 0 (!isWordChar c)
    else c :: removeSqlScan cs 0 (!isWordChar c)

/-- `sanitized.replace(/\b(and|or|...)\b/gi, "")`. -/
def removeSqlWords (s : String) : String :=
  ⟨removeSqlScan s.data 0 true⟩

/-- `sanitized.replace(/\.\./g, "")`: remove double dots, left to right,
non-overlapping. -/
def removeDotDot : List Char → List Char
  | '.' :: '.' :: rest => removeDotDot rest
  | c :: rest => c :: removeDotDot rest
  | [] => []

/-- `sanitized.replace(/\*{2,}/g, "*")`: collapse runs of two or more
asterisks to one (`prevStar` records whether the previous character belonged
to a star run, whose later stars are dropped). -/
def collapseStarsScan : List Char → Bool → List Char
  | [], _ => []
  | c :: rest, prevStar =>
    if c = '*' then
      if prevStar then collapseStarsScan rest true
      else '*' :: collapseStarsScan rest true
    else c :: collapseStarsScan rest false

/-- The star-collapsing pass over a character list. -/
def collapseStars (l : List Char) : List Char :=
  collapseStarsScan l false

/-- Control characters removed by the sanitizer:
`[\u0000-\u0008\u000B\u000C\u000E-\u001F\u007F]`. -/
def isStrippedControl (c : Char) : Bool :=
  c.toNat ≤ 0x8 || c.toNat = 0xB || c.toNat = 0xC ||
    (0xE ≤ c.toNat && c.toNat ≤ 0x1F) || c.toNat = 0x7F

/-- `sanitized.replace(/\s+/g, " ")`: collapse whitespace runs to a single
space. -/
def collapseWs : List Char → List Char
  | [] => []
  | [c] => [if jsIsSpace c then ' ' else c]
  | c1 :: c2 :: rest =>
    if jsIsSpace c1 && jsIsSpace c2 then collapseWs (c2 :: rest)
    else (if jsIsSpace c1 then ' ' else c1) :: collapseWs (c2 :: rest)

/-- `sanitizeSearchQuery(query, maxLength = 100)`
(`securityUtils.ts:211-246`): truncate, strip HTML, remove SQL keywords,
double dots, excessive wildcards and control characters, then normalize
whitespace. -/
def sanitizeSearchQuery (query : String) (maxLength : Nat := 100) : String :=
  let s1 : String := ⟨query.data.take maxLength⟩
  let s2 := domPurifySanitize s1
  let s3 := removeSqlWords s2
  let s4 : String := ⟨removeDotDot s3.data⟩
  let s5 : String := ⟨collapseStars s4.data⟩
  let s6 : String := ⟨s5.data.filter (fun c => !isStrippedControl c)⟩
  jsTrim ⟨collapseWs s6.data⟩

/-- `useDeviceSearch(devices, query)` (`src/hooks/useDeviceSearch.ts`):
sanitize the query, then filter. -/
def useDeviceSearch (devices : List Device) (query : String) : List Device :=
  filterDevices devices (sanitizeSearchQuery query)

/-! ## URL-state synchronizer and filter composer
(`src/hooks/useDeviceFilters.ts`)

`URLSearchParams` is modelled at the `get`/`set` level: a pair of optional
parameter values.  (Percent-encoding by `toString` and decoding by `get` are
inverse and are not modelled.) -/

/-- The two recognised URL parameters. -/
structure UrlParams where
  q : Option String
  lines : Option String
deriving DecidableEq

/-- `buildUrlParams(searchQuery, lineFilters)`
(`useDeviceFilters.ts:19-24`): `q` is set to the trimmed query when that is
truthy; `lines` is set to the comma-joined filters when nonempty. -/
def buildUrlParams (searchQuery : String) (lineFilters : List String) :
    UrlParams where
  q := if jsTrim searchQuery ≠ "" then some (jsTrim searchQuery) else none
  lines := if lineFilters.length > 0 then some (jsJoin ',' lineFilters) else none

/-- `searchParams.get("q") || ""` (`useDeviceFilters.ts:12`). -/
def parseQParam (params : UrlParams) : String :=
  jsOr (params.q.getD "") ""

/-- `searchParams.get("lines")?.split(",").filter(Boolean) || []`
(`useDeviceFilters.ts:13-16`). -/
def parseLinesParam : Option String → List String
  | some s => (jsSplit s ',').filter (fun t => t ≠ "")
  | none => []

/-- The selected-category list recovered from the URL. -/
def parseLines (params : UrlParams) : List String :=
  parseLinesParam params.lines

/-- The categorical filter predicate
`device.line?.name && productLineFilter.includes(device.line.name)`
(`useDeviceFilters.ts:41-45`); an absent or empty line name is falsy. -/
def productLinePred (selected : List String) (device : Device) : Bool :=
  match device.line with
  | some line => line.name ≠ "" && selected.contains line.name
  | none => false

/-- `fullyFilteredDevices` (`useDeviceFilters.ts:46-49`): search first, then
the categorical stage, which is skipped when no category is selected. -/
def fullyFilteredDevices (devices : List Device) (query : String)
    (selected : List String) : List Device :=
  let searchFiltered := useDeviceSearch devices query
  if selected.length = 0 then searchFiltered
  else searchFiltered.filter (productLinePred selected)

/-! ## Schema validator (`src/utils/validationSchemas.ts`,
`src/utils/validationUtils.ts`)

The zod schemas are modelled by executable parsers/checkers over `JValue`.
`DeviceSchema.parse` either fails (the `catch` branch of `validateDevice`)
or yields the typed record; zod's stripping of unknown object keys
corresponds to projecting into the `Device` structure.  The dynamic text of
a `ZodError` is abstracted to the fixed message prefix the source
constructs around it. -/

/-- Coerce a JSON value to a string, as `z.string()` accepts it. -/
def asStr : JValue → Option String
  | .str s => some s
  | _ => none

/-- Coerce a JSON value to a number (`z.number()`). -/
def asInt : JValue → Option Int
  | .num n => some n
  | _ => none

/-- Coerce a JSON value to a boolean (`z.boolean()`). -/
def asBool : JValue → Option Bool
  | .bool b => some b
  | _ => none

/-- Look up a key among an object's fields. -/
def jGetField (fields : List (String × JValue)) (key : String) : Option JValue :=
  (fields.find? (fun f => f.1 == key)).map Prod.snd

/-- `z.array(p)` as a boolean check. -/
def checkArrayOf (p : JValue → Bool) : JValue → Bool
  | .arr xs => xs.all p
  | _ => false

/-- `z.record(z.string(), p)` as a boolean check. -/
def checkRecordOf (p : JValue → Bool) : JValue → Bool
  | .obj fs => fs.all (fun f => p f.2)
  | _ => false

/-- `z.string()` as a boolean check. -/
def checkString (v : JValue) : Bool :=
  (asStr v).isSome

/-- `z.number()` as a boolean check. -/
def checkNumber (v : JValue) : Bool :=
  (asInt v).isSome

/-- `z.boolean()` as a boolean check. -/
def checkBoolean (v : JValue) : Bool :=
  (asBool v).isSome

/-- A required object field validated by `p`. -/
def reqField (fs : List (String × JValue)) (key : String) (p : JValue → Bool) : Bool :=
  match jGetField fs key with
  | some v => p v
  | none => false

/-- An `.optional()` object field validated by `p` when present. -/
def optField (fs : List (String × JValue)) (key : String) (p : JValue → Bool) : Bool :=
  match jGetField fs key with
  | some v => p v
  | none => true

/-- The `power` sub-object of `DeviceUnifiSchema.network`. -/
def checkPower : JValue → Bool
  | .obj fs => reqField fs "capacity" checkNumber
  | _ => false

/-- The `shadowMode` sub-object of `DeviceUnifiSchema.network`. -/
def checkShadowMode : JValue → Bool
  | .obj fs =>
    reqField fs "interconnectPortInterface" checkString &&
    reqField fs "interconnectPortNumber" checkNumber
  | _ => false

/-- The `network` sub-object of `DeviceUnifiSchema`. -/
def checkUnifiNetwork : JValue → Bool
  | .obj fs =>
    reqField fs "bleServices" (checkArrayOf (fun _ => true)) &&
    optField fs "chipset" checkString &&
    reqField fs "deviceCapabilities" (checkArrayOf checkString) &&
    optField fs "diagram" (checkArrayOf checkString) &&
    optField fs "ethernetMaxSpeedMegabitsPerSecond" checkNumber &&
    optField fs "features" (checkRecordOf (fun _ => true)) &&
    optField fs "knownUnsupportedFeatures" (checkArrayOf checkString) &&
    optField fs "linkNegotiation" (checkRecordOf (fun _ => true)) &&
    optField fs "minimumFirmwareRequired" checkString &&
    reqField fs "model" checkString &&
    optField fs "networkGroups" (checkRecordOf checkString) &&
    optField fs "numberOfPorts" checkNumber &&
    optField fs "ports" (checkRecordOf checkString) &&
    optField fs "power" checkPower &&
    optField fs "radios" (checkRecordOf (fun _ => true)) &&
    optField fs "shadowMode" checkShadowMode &&
    optField fs "subtypes" (checkArrayOf checkString) &&
    reqField fs "systemIdHexadecimal" checkString &&
    reqField fs "type" checkString
  | _ => false

/-- `DeviceUnifiSchema`. -/
def checkUnifi : JValue → Bool
  | .obj fs =>
    reqField fs "adoptability" checkString &&
    reqField fs "nameLegacy" (checkArrayOf checkString) &&
    optField fs "network" checkUnifiNetwork
  | _ => false

/-- `DeviceUISPSchema`. -/
def checkUISP : JValue → Bool
  | .obj fs =>
    optField fs "bleServices" (checkRecordOf (fun _ => true)) &&
    reqField fs "firmware" (fun v =>
      match v with
      | .obj gs =>
        reqField gs "board" (checkArrayOf checkString) &&
        reqField gs "platform" checkString
      | _ => false) &&
    reqField fs "line" checkString &&
    reqField fs "nameLegacy" (checkArrayOf checkString)
  | _ => false

/-- `DeviceComplianceSchema`. -/
def checkCompliance : JValue → Bool
  | .obj fs =>
    optField fs "fcc" checkString &&
    optField fs "ic" checkString &&
    optField fs "icEmi" checkString &&
    reqField fs "model" checkString &&
    optField fs "modelName" checkString &&
    optField fs "ncc" checkString &&
    optField fs "rcm" checkBoolean &&
    optField fs "rfCmFcc" checkNumber &&
    optField fs "rfCmIc" checkNumber &&
    optField fs "text" (checkRecordOf (checkArrayOf checkString)) &&
    optField fs "wifi" checkString &&
    optField fs "anatel" checkString &&
    optField fs "cn" checkString &&
    optField fs "jpa" (checkArrayOf checkString) &&
    optField fs "jrf" (checkArrayOf checkString) &&
    optField fs "indoorOnly" checkBoolean
  | _ => false

/-- `DeviceBTLESchema`. -/
def checkBTLE : JValue → Bool
  | .obj fs =>
    reqField fs "factoryDefault" checkString &&
    reqField fs "userConfigured" checkString
  | _ => false

/-- `minAdoptVersion: z.object({net: z.string()})`. -/
def checkMinAdopt : JValue → Bool
  | .obj fs => reqField fs "net" checkString
  | _ => false

/-- `z.array(z.string())` as a parser. -/
def parseStringList : JValue → Option (List String)
  | .arr xs => xs.mapM asStr
  | _ => none

/-- `z.array(z.array(z.number()))` as a parser (`icon.resolutions`). -/
def parseResolutions : JValue → Option (List (List Int))
  | .arr xs =>
    xs.mapM (fun x => match x with | .arr ys => ys.mapM asInt | _ => none)
  | _ => none

/-- `DeviceIconSchema` as a parser. -/
def parseIcon : JValue → Option DeviceIcon
  | .obj fs => do
    let id ← jGetField fs "id" >>= asStr
    let resolutions ← jGetField fs "resolutions" >>= parseResolutions
    some ⟨id, resolutions⟩
  | _ => none

/-- `DeviceImagesSchema` as a parser. -/
def parseImages : JValue → Option DeviceImages
  | .obj fs => do
    let d ← jGetField fs "default" >>= asStr
    let np ← jGetField fs "nopadding" >>= asStr
    let tp ← jGetField fs "topology" >>= asStr
    some ⟨d, np, tp⟩
  | _ => none

/-- `DeviceLineSchema` as a parser. -/
def parseLine : JValue → Option DeviceLine
  | .obj fs => do
    let id ← jGetField fs "id" >>= asStr
    let name ← jGetField fs "name" >>= asStr
    some ⟨id, name⟩
  | _ => none

/-- `DeviceProductSchema` as a parser. -/
def parseProduct : JValue → Option DeviceProduct
  | .obj fs => do
    let ab ← jGetField fs "abbrev" >>= asStr
    let name ← jGetField fs "name" >>= asStr
    some ⟨ab, name⟩
  | _ => none

/-- An optional string field (`z.string().optional()`) as a parser. -/
def optStrField (fs : List (String × JValue)) (key : String) :
    Option (Option String) :=
  match jGetField fs key with
  | none => some none
  | some v => (asStr v).map some

/-- An optional loosely-typed block: present values must pass `check` and are
kept raw. -/
def parseOptField (fs : List (String × JValue)) (key : String)
    (check : JValue → Bool) : Option (Option JValue) :=
  match jGetField fs key with
  | none => some none
  | some v => if check v then some (some v) else none

/-- A `triplets` entry (`z.object({k1/k2/k3: z.string().optional()})`). -/
def parseTriplet : JValue → Option Triplet
  | .obj fs => do
    let k1 ← optStrField fs "k1"
    let k2 ← optStrField fs "k2"
    let k3 ← optStrField fs "k3"
    some ⟨k1, k2, k3⟩
  | _ => none

/-- An `.optional()` string-array field (`jrf`). -/
def optStrListField (fs : List (String × JValue)) (key : String) :
    Option (Option (List String)) :=
  match jGetField fs key with
  | none => some none
  | some w => (parseStringList w).map some

/-- An `.optional()` boolean field (`isARSupported`). -/
def optBoolField (fs : List (String × JValue)) (key : String) :
    Option (Option Bool) :=
  match jGetField fs key with
  | none => some none
  | some w => (asBool w).map some

/-- The required `triplets` field (`z.array` of `Triplet` objects). -/
def parseTriplets (fs : List (String × JValue)) : Option (List Triplet) :=
  match jGetField fs "triplets" with
  | some (.arr xs) => xs.mapM parseTriplet
  | _ => none

/-- The required `guids`/`shortnames`/`sysids` string-array fields. -/
def reqStrListField (fs : List (String × JValue)) (key : String) :
    Option (List String) :=
  jGetField fs key >>= parseStringList

/-- A required string field. -/
def reqStrField (fs : List (String × JValue)) (key : String) : Option String :=
  jGetField fs key >>= asStr

/-- `DeviceSchema.parse` / `validateDevice` (`validationUtils.ts:55-80`):
`some` exactly when the raw value conforms to the schema; the returned
record is the typed projection of the input.  All twenty field checks of
`DeviceSchema` must succeed. -/
def parseDevice : JValue → Option Device
  | .obj fs =>
    match parseOptField fs "btle" checkBTLE,
          parseOptField fs "compliance" checkCompliance,
          optStrField fs "deviceType",
          reqStrListField fs "guids",
          jGetField fs "icon" >>= parseIcon,
          reqStrField fs "id",
          jGetField fs "images" >>= parseImages,
          optStrListField fs "jrf",
          jGetField fs "line" >>= parseLine,
          parseOptField fs "minAdoptVersion" checkMinAdopt,
          jGetField fs "product" >>= parseProduct,
          reqStrListField fs "shortnames",
          reqStrField fs "sku",
          optStrField fs "sysid",
          reqStrListField fs "sysids",
          parseTriplets fs,
          parseOptField fs "unifi" checkUnifi,
          parseOptField fs "uisp" checkUISP,
          parseOptField fs "videos" (checkRecordOf (fun _ => true)),
          optBoolField fs "isARSupported" with
    | some btle, some compliance, some deviceType, some guids, some icon,
      some id, some images, some jrf, some line, some minAdoptVersion,
      some product, some shortnames, some sku, some sysid, some sysids,
      some triplets, some unifi, some uisp, some videos, some isARSupported =>
      some { id := id, sku := some sku, sysid := sysid, sysids := sysids,
             guids := guids, shortnames := some shortnames,
             triplets := triplets, product := some product, line := some line,
             icon := some icon, images := some images, btle := btle,
             compliance := compliance, deviceType := deviceType, jrf := jrf,
             minAdoptVersion := minAdoptVersion, unifi := unifi, uisp := uisp,
             videos := videos, isARSupported := isARSupported }
    | _, _, _, _, _, _, _, _, _, _, _, _, _, _, _, _, _, _, _, _ => none
  | _ => none

/-- `DeviceResponseSchema.parse` / `validateDeviceResponse`
(`validationUtils.ts:23-50`): the required `devices` array (every entry
conforming to the device schema) and the required `version` string. -/
def parseDeviceResponse (v : JValue) : Option (List Device × String) :=
  match v with
  | .obj fs =>
    match (match jGetField fs "devices" with
           | some (.arr xs) => xs.mapM parseDevice
           | _ => none),
          jGetField fs "version" >>= asStr with
    | some devices, some version => some (devices, version)
    | _, _ => none
  | _ => none

/-! ### Defensive path lookup (`validationUtils.ts:85-163`) -/

/-- The walk of `safeGet(obj, path, fallback)`: at each key the current value
must be a non-null object containing the key; a `null` final value also
falls back (the trailing `?? fallback`).  `none` means "use the fallback".
(JavaScript's prototype-chain `in` and array index/`length` keys are not
modelled; no path used by the source touches them.) -/
def safeGetWalk : JValue → List String → Option JValue
  | .null, [] => none
  | v, [] => some v
  | .obj fs, k :: ks =>
    match jGetField fs k with
    | some v2 => safeGetWalk v2 ks
    | none => none
  | _, _ :: _ => none

/-- `safeGet` with the path split on dots. -/
def safeGet (v : JValue) (path : String) : Option JValue :=
  safeGetWalk v (jsSplit path '.')

/-- `safeGetString(obj, path, fallback = "")`. -/
def safeGetString (v : JValue) (path : String) (fallback : String := "") : String :=
  match safeGet v path with
  | some (.str s) => s
  | _ => fallback

/-- `safeGetArray(obj, path, fallback = [])`, before the unchecked element
cast. -/
def safeGetArray (v : JValue) (path : String) : List JValue :=
  match safeGet v path with
  | some (.arr xs) => xs
  | _ => []

/-- `safeGetObject(obj, path, {})`: the fields of the object at `path`, or
none (the empty fallback object) otherwise. -/
def safeGetObjFields (v : JValue) (path : String) : List (String × JValue) :=
  match safeGet v path with
  | some (.obj fs) => fs
  | _ => []

/-- Truthiness of a JSON value under JavaScript coercion. -/
def jsTruthy : JValue → Bool
  | .str s => s ≠ ""
  | .num n => n ≠ 0
  | .bool b => b
  | .null => false
  | .arr _ => true
  | .obj _ => true

/-- Truthiness of a property of an extracted object (`btle.factoryDefault`
etc.; an absent property is falsy `undefined`). -/
def jsTruthyField (fs : List (String × JValue)) (key : String) : Bool :=
  match jGetField fs key with
  | some v => jsTruthy v
  | none => false

/-- The string elements of a loosely captured array.  The source casts the
raw array with `as string[]` without checking elements; the model keeps the
elements that are strings.  (No claim observes the fields built this way.) -/
def stringElems (xs : List JValue) : List String :=
  xs.filterMap asStr

/-- The `[width, height]` rows of a loosely captured `icon.resolutions`
array (cast unchecked in the source; the model keeps the numeric entries of
the rows that are arrays). -/
def resolutionRows (xs : List JValue) : List (List Int) :=
  xs.filterMap (fun v => match v with
    | .arr ys => some (ys.filterMap asInt)
    | _ => none)

/-- A string-typed property of a loose `triplets` element. -/
def looseStrField (fs : List (String × JValue)) (key : String) : Option String :=
  match jGetField fs key with
  | some (.str s) => some s
  | _ => none

/-- The `Triplet` rows of a loosely captured `triplets` array (cast
unchecked in the source). -/
def tripletRows (xs : List JValue) : List Triplet :=
  xs.map (fun v => match v with
    | .obj fs => ⟨looseStrField fs "k1", looseStrField fs "k2", looseStrField fs "k3"⟩
    | _ => ⟨none, none, none⟩)

/-- `createSafeDevice(rawDevice)` (`validationUtils.ts:168-271`): return the
validated record when the schema accepts, else assemble a placeholder from
defensive field-by-field extraction. -/
def createSafeDevice (rawDevice : JValue) : Device :=
  match parseDevice rawDevice with
  | some device => device
  | none =>
    let btle := safeGetObjFields rawDevice "btle"
    let compliance := safeGetObjFields rawDevice "compliance"
    let deviceType := safeGetString rawDevice "deviceType"
    let jrfRaw := safeGetArray rawDevice "jrf"
    let minAdoptVersion := safeGetObjFields rawDevice "minAdoptVersion"
    let sysid := safeGetString rawDevice "sysid"
    let unifi := safeGetObjFields rawDevice "unifi"
    let uisp := safeGetObjFields rawDevice "uisp"
    let videos := safeGetObjFields rawDevice "videos"
    { id := safeGetString rawDevice "id" "unknown-device"
      guids := stringElems (safeGetArray rawDevice "guids")
      icon := some
        { id := safeGetString rawDevice "icon.id" "unknown-icon"
          resolutions := resolutionRows (safeGetArray rawDevice "icon.resolutions") }
      images := some
        { default := safeGetString rawDevice "images.default"
          nopadding := safeGetString rawDevice "images.nopadding"
          topology := safeGetString rawDevice "images.topology" }
      line := some
        { id := safeGetString rawDevice "line.id" "unknown-line"
          name := safeGetString rawDevice "line.name" "Unknown Line" }
      product := some
        { abbrv := safeGetString rawDevice "product.abbrev"
          name := safeGetString rawDevice "product.name" "Unknown Product" }
      shortnames := some (stringElems (safeGetArray rawDevice "shortnames"))
      sku := some (safeGetString rawDevice "sku" "unknown-sku")
      sysids := stringElems (safeGetArray rawDevice "sysids")
      triplets := tripletRows (safeGetArray rawDevice "triplets")
      btle :=
        if jsTruthyField btle "factoryDefault" || jsTruthyField btle "userConfigured"
        then some (.obj btle) else none
      compliance := if compliance.length > 0 then some (.obj compliance) else none
      deviceType := if deviceType ≠ "" then some deviceType else none
      jrf := if jrfRaw.length > 0 then some (stringElems jrfRaw) else none
      minAdoptVersion :=
        if jsTruthyField minAdoptVersion "net" then some (.obj minAdoptVersion) else none
      sysid := if sysid ≠ "" then some sysid else none
      unifi := if unifi.length > 0 then some (.obj unifi) else none
      uisp := if uisp.length > 0 then some (.obj uisp) else none
      videos := if videos.length > 0 then some (.obj videos) else none
      isARSupported :=
        match safeGet rawDevice "isARSupported" with
        | some (.bool b) => some b
        | _ => none }

/-- The result shape of `processDeviceResponse`. -/
structure ProcessedDeviceResponse where
  devices : List Device
  validationErrors : List String
  hasValidationErrors : Bool

/-- The fixed prefix of the per-device validation error the source builds
(`Device schema validation failed: ${zod message}`; the dynamic zod text is
abstracted away). -/
def deviceValidationFailed : String := "Device schema validation failed"

/-- The per-record fallback loop of `processDeviceResponse`
(`validationUtils.ts:300-313`): one output device per raw entry, with an
error naming the index for each entry the schema rejects. -/
def validateDevicesLoop : Nat → List JValue → List Device × List String
  | _, [] => ([], [])
  | i, r :: rs =>
    let rest := validateDevicesLoop (i + 1) rs
    match parseDevice r with
    | some d => (d :: rest.1, rest.2)
    | none =>
      (createSafeDevice r :: rest.1,
       ("Device " ++ toString i ++ ": " ++ deviceValidationFailed) :: rest.2)

/-- `processDeviceResponse(rawResponse)` (`validationUtils.ts:276-320`). -/
def processDeviceResponse (rawResponse : JValue) : ProcessedDeviceResponse :=
  match parseDeviceResponse rawResponse with
  | some (devices, _) => ⟨devices, [], false⟩
  | none =>
    let rawDevices := safeGetArray rawResponse "devices"
    let r := validateDevicesLoop 0 rawDevices
    ⟨r.1, r.2, decide (0 < r.2.length)⟩

/-! ## Device cache service (`src/services/deviceService.ts`,
`src/config/api.ts`)

The singleton's two mutable fields are the explicit `ServiceState`;
`Date.now()` is the `now` parameter; the awaited
`fetch` + `response.ok` check + `response.json()` sequence is the
`outcome` parameter — `.error` carries the thrown error's message (network
failure, the synthesized `HTTP error! status: …`, or a JSON parse error),
`.ok` carries the decoded body. -/

/-- `API_CONFIG.CACHE_DURATION` (`src/config/api.ts:26`): 5 minutes in
milliseconds. -/
def CACHE_DURATION : Int := 5 * 60 * 1000

/-- The mutable fields of the `DeviceService` singleton. -/
structure ServiceState where
  cache : Option (List Device)
  cacheTimestamp : Option Int

/-- The result shape of `DeviceService.fetchDevices`. -/
structure DeviceServiceResult where
  data : Option (List Device)
  loading : Bool
  error : Option String

/-- `getErrorMessage` (`src/utils/errorUtils.ts:26-49`) on an `Error` with
the given message. -/
def getErrorMessage (message : String) : String :=
  if jsIncludes message "timeout" || jsIncludes message "aborted" then
    "Request timeout - please try again"
  else if jsIncludes message "404" then
    "Device data not found"
  else if jsIncludes message "500" || jsIncludes message "server error" then
    "Server error - please try again later"
  else if jsIncludes message "network" || jsIncludes message "fetch" then
    "Network error - please check your connection"
  else message

/-- `DeviceService.isCacheValid` (`deviceService.ts:97-103`). -/
def isCacheValid (state : ServiceState) (now : Int) : Bool :=
  match state.cache, state.cacheTimestamp with
  | some _, some ts => decide (now - ts < CACHE_DURATION)
  | _, _ => false

/-- `DeviceService.fetchDevices` (`deviceService.ts:41-94`): serve the cache
when valid; otherwise run the fetch-and-validate cycle, store its result
with a fresh timestamp on success, and surface (without storing) the error
on failure.  Returns (result, new state, whether a fetch was performed). -/
def fetchDevices (state : ServiceState) (now : Int)
    (outcome : Except String JValue) :
    DeviceServiceResult × ServiceState × Bool :=
  if isCacheValid state now then
    (⟨state.cache, false, none⟩, state, false)
  else
    match outcome with
    | .ok rawData =>
      let processed := processDeviceResponse rawData
      (⟨some processed.devices, false, none⟩,
       ⟨some processed.devices, some now⟩, true)
    | .error message =>
      (⟨none, false, some (getErrorMessage message)⟩, state, true)

/-- `DeviceService.clearCache` (`deviceService.ts:106-109`). -/
def clearCache (_state : ServiceState) : ServiceState :=
  ⟨none, none⟩

/-- `DeviceService.getCachedDevices` (`deviceService.ts:113-115`). -/
def getCachedDevices (state : ServiceState) (now : Int) : Option (List Device) :=
  if isCacheValid state now then state.cache else none

/-! ## Specification-side definitions

These follow the specification's and claims' own wording, for comparison
with the definitions translated from the source. -/

/-- Specification-side notion of substring containment: `needle` occurs
contiguously inside `haystack`. -/
def IsSubstringOf (needle haystack : String) : Prop :=
  ∃ pre suf, haystack.data = pre ++ needle.data ++ suf

/-- The searchable text as the claim about `matchesSearchQuery` words it:
the lower-cased space-joined concatenation of product name, abbreviation,
line name, SKU, the primary identifier AND the secondary identifier, and all
short names.  (The source instead contributes `sysid || id || ""`, a single
identifier slot.) -/
def claimSearchText (device : Device) : String :=
  jsToLower (jsJoin ' '
    ([ (device.product.map DeviceProduct.name).getD ""
     , (device.product.map DeviceProduct.abbrv).getD ""
     , (device.line.map DeviceLine.name).getD ""
     , device.sku.getD ""
     , device.id
     , device.sysid.getD ""
     ] ++ device.shortnames.getD []))

/-- The suggestions that the devices of one match tier contribute, in
catalog order and before cross-tier de-duplication: exactly the devices the
suggestion loop classifies into that tier. -/
def tierSuggestions (devices : List Device) (q : String) (t : MatchTier) :
    List AutocompleteSuggestion :=
  devices.filterMap (fun d =>
    if deviceName d ≠ "" ∧ bestMatch d q = some t
    then some (suggestionOf d) else none)

/-! ## Concrete records used by witnesses and counterexamples -/

/-- A record whose primary identifier is shadowed by a secondary one. -/
def c1Dev : Device :=
  { emptyDevice with id := "abc123", sysid := some "zzz" }

/-- A record whose product name exactly equals the query `udm`. -/
def c6DevExact : Device :=
  { emptyDevice with id := "a1", product := some ⟨"", "UDM"⟩ }

/-- A record whose product name merely contains `udm` but whose abbreviation
exactly equals it. -/
def c6DevContains : Device :=
  { emptyDevice with id := "b1", product := some ⟨"UDM", "XUDM"⟩ }

/-- A record with glyph-icon data only, whose declared widths all lie below
the small/large preferred width 128. -/
def c9Dev : Device :=
  { emptyDevice with id := "d9", icon := some ⟨"ic9", [[64, 64], [96, 96]]⟩ }

/-- Icon data with an exact 64 match and a 256 entry. -/
def c9icon : DeviceIcon := ⟨"ic9w", [[64, 64], [256, 256]]⟩

/-- A record carrying `c9icon` and no product photo. -/
def c9DevW : Device :=
  { emptyDevice with id := "d9w", icon := some c9icon }

/-- A record in the `UniFi` product line. -/
def c8Dev : Device :=
  { emptyDevice with
    id := "c8"
    line := some ⟨"li", "UniFi"⟩
    product := some ⟨"", "Dream"⟩ }

/-! ## String lemmas -/

theorem isPrefixList_iff : ∀ (p l : List Char),
    isPrefixList p l = true ↔ ∃ t, l = p ++ t
  | [], l => by simp [isPrefixList]
  | a :: as, [] => by simp [isPrefixList]
  | a :: as, b :: bs => by
    simp only [isPrefixList, Bool.and_eq_true, decide_eq_true_eq,
      isPrefixList_iff as bs]
    constructor
    · rintro ⟨rfl, t, rfl⟩
      exact ⟨t, rfl⟩
    · rintro ⟨t, ht⟩
      simp only [List.cons_append, List.cons.injEq] at ht
      exact ⟨ht.1.symm, t, ht.2⟩

theorem containsList_iff : ∀ (n l : List Char),
    containsList n l = true ↔ ∃ pre suf, l = pre ++ n ++ suf
  | n, [] => by
    rw [containsList, isPrefixList_iff]
    constructor
    · rintro ⟨t, ht⟩
      exact ⟨[], t, by simpa using ht⟩
    · rintro ⟨pre, suf, h⟩
      have h' := h.symm
      simp only [List.append_assoc, List.append_eq_nil] at h'
      exact ⟨suf, by simp [h'.1, h'.2.1, h'.2.2]⟩
  | n, c :: t => by
    rw [containsList, Bool.or_eq_true, isPrefixList_iff, containsList_iff n t]
    constructor
    · rintro (⟨tl, htl⟩ | ⟨pre, suf, h⟩)
      · exact ⟨[], tl, by simpa using htl⟩
      · exact ⟨c :: pre, suf, by simp [h]⟩
    · rintro ⟨pre, suf, h⟩
      cases pre with
      | nil => exact Or.inl ⟨suf, by simpa using h⟩
      | cons p ps =>
        simp only [List.cons_append, List.cons.injEq, List.append_assoc] at h
        exact Or.inr ⟨ps, suf, by simp [h.2]⟩

theorem jsIncludes_iff (haystack needle : String) :
    jsIncludes haystack needle = true ↔ IsSubstringOf needle haystack := by
  rw [jsIncludes, containsList_iff]
  rfl

theorem joinChars_toLower : ∀ (xs : List String),
    (joinChars ' ' xs).map Char.toLower = joinChars ' ' (xs.map jsToLower)
  | [] => rfl
  | [x] => rfl
  | x :: y :: xs => by
    show (x.data ++ ' ' :: joinChars ' ' (y :: xs)).map Char.toLower = _
    rw [List.map_append, List.map_cons, joinChars_toLower (y :: xs)]
    rfl

theorem jsToLower_join (xs : List String) :
    jsToLower (jsJoin ' ' xs) = jsJoin ' ' (xs.map jsToLower) := by
  show String.mk ((joinChars ' ' xs).map Char.toLower) = String.mk _
  rw [joinChars_toLower]

theorem jsToLower_length (s : String) : (jsToLower s).length = s.length := by
  show (s.data.map Char.toLower).length = s.data.length
  rw [List.length_map]

/-! ## C1: search matching -/

/-- C1 (counterexample): for the record `c1Dev` (primary identifier
`abc123`, secondary identifier `zzz`) and the query `abc123`, the trimmed
lower-cased query is non-empty and is a substring of the concatenation the
claim describes (which includes both identifiers), yet `matchesSearchQuery`
returns false — the source searches `sysid || id`, a single identifier
slot, so the primary identifier is shadowed. -/
theorem c1_counterexample :
    matchesSearchQuery c1Dev "abc123" = false ∧
    jsToLower (jsTrim "abc123") ≠ "" ∧
    jsIncludes (claimSearchText c1Dev) (jsToLower (jsTrim "abc123")) = true := by
  decide

/-- C1 (amended): `matchesSearchQuery(device, query)` returns true iff the
trimmed lower-cased query is empty or is a substring of the lower-cased
space-joined concatenation of product name, abbreviation, line name, SKU,
the secondary identifier when truthy otherwise the primary identifier, and
all short names; consequently `filterDevices` with an empty or
whitespace-only query returns all records unchanged. -/
theorem c1_holds (device : Device) (query : String) (records : List Device) :
    (matchesSearchQuery device query = true ↔
      (jsToLower (jsTrim query) = "" ∨
        IsSubstringOf (jsToLower (jsTrim query))
          (jsJoin ' ' ((searchableFieldList device).map jsToLower)))) ∧
    (jsTrim query = "" → filterDevices records query = records) := by
  constructor
  · by_cases hq : jsToLower (jsTrim query) = ""
    · simp [matchesSearchQuery, hq]
    · rw [matchesSearchQuery]
      simp only [hq, if_false, ← jsToLower_join]
      rw [jsIncludes_iff]
      simp [hq]
  · intro h
    rw [filterDevices]
    by_cases hr : records.length = 0
    · simp [hr, List.length_eq_zero.mp hr]
    · simp only [hr, if_false]
      refine List.filter_eq_self.mpr (fun a _ => ?_)
      have : jsToLower (jsTrim query) = "" := by rw [h]; rfl
      simp [matchesSearchQuery, this]

/-- C1 (witness): the amended theorem applied to `c1Dev` and a
whitespace-only query. -/
theorem c1_witness :
    jsTrim "   " = "" ∧ filterDevices [c1Dev] "   " = [c1Dev] :=
  ⟨by decide, (c1_holds c1Dev "   " [c1Dev]).2 (by decide)⟩

/-! ## C2: URL round trip -/

theorem splitCharsAux_no_sep (sep : Char) : ∀ (cs acc : List Char),
    (∀ c ∈ cs, c ≠ sep) →
    splitCharsAux sep cs acc = [⟨acc.reverse ++ cs⟩]
  | [], acc => by simp [splitCharsAux]
  | c :: cs, acc => by
    intro h
    have hc : c ≠ sep := h c (by simp)
    rw [splitCharsAux, if_neg hc,
      splitCharsAux_no_sep sep cs (c :: acc) (fun x hx => h x (by simp [hx]))]
    simp

theorem splitCharsAux_sep (sep : Char) : ∀ (cs rest acc : List Char),
    (∀ c ∈ cs, c ≠ sep) →
    splitCharsAux sep (cs ++ sep :: rest) acc =
      ⟨acc.reverse ++ cs⟩ :: splitCharsAux sep rest []
  | [], rest, acc => by
    intro _
    rw [List.nil_append, splitCharsAux, if_pos rfl]
    simp
  | c :: cs, rest, acc => by
    intro h
    have hc : c ≠ sep := h c (by simp)
    rw [List.cons_append, splitCharsAux, if_neg hc,
      splitCharsAux_sep sep cs rest (c :: acc) (fun x hx => h x (by simp [hx]))]
    simp

theorem jsSplit_join : ∀ (l : List String), l ≠ [] →
    (∀ x ∈ l, ',' ∉ x.data) →
    jsSplit (jsJoin ',' l) ',' = l
  | [], h, _ => absurd rfl h
  | [x], _, hc => by
    show splitCharsAux ',' x.data [] = [x]
    rw [splitCharsAux_no_sep ',' x.data []
      (fun c hcc he => (hc x (by simp)) (he ▸ hcc))]
    rfl
  | x :: y :: xs, _, hc => by
    show splitCharsAux ',' (x.data ++ ',' :: joinChars ',' (y :: xs)) [] = _
    rw [splitCharsAux_sep ',' x.data (joinChars ',' (y :: xs)) []
      (fun c hcc he => (hc x (by simp)) (he ▸ hcc))]
    have ih := jsSplit_join (y :: xs) (by simp)
      (fun z hz => hc z (by simp [hz]))
    rw [show splitCharsAux ',' (joinChars ',' (y :: xs)) [] =
      jsSplit (jsJoin ',' (y :: xs)) ',' from rfl, ih]
    rfl

/-- C2 (counterexample): the QueryState with query `"a "` and no categories
serializes with `q` set to the trimmed `"a"`, so deserializing yields the
query `"a"`, not the original string `"a "` — the round trip does not
reproduce every query string. -/
theorem c2_counterexample :
    buildUrlParams "a " [] = ⟨some "a", none⟩ ∧
    parseQParam (buildUrlParams "a " []) = "a" ∧ "a" ≠ "a " := by
  decide

/-- C2 (amended): for every QueryState whose query equals its own trim and
whose category names are all non-empty and comma-free, deserializing the
serialized parameters returns the original query string and the original
category list (hence the same category set). -/
theorem c2_holds (query : String) (categories : List String)
    (hq : jsTrim query = query)
    (hc : ∀ c ∈ categories, c ≠ "" ∧ ',' ∉ c.data) :
    parseQParam (buildUrlParams query categories) = query ∧
    parseLines (buildUrlParams query categories) = categories := by
  constructor
  · by_cases hqe : query = ""
    · subst hqe
      have h0 : jsTrim "" = "" := by decide
      simp [parseQParam, buildUrlParams, h0, jsOr]
    · simp [parseQParam, buildUrlParams, hq, hqe, jsOr]
  · cases categories with
    | nil => simp [parseLines, buildUrlParams, parseLinesParam]
    | cons c cs =>
      rw [parseLines, buildUrlParams]
      simp only [List.length_cons, if_pos (Nat.succ_pos _)]
      rw [parseLinesParam]
      rw [jsSplit_join (c :: cs) (by simp) (fun x hx => (hc x hx).2)]
      exact List.filter_eq_self.mpr
        (fun a ha => by simpa using (hc a ha).1)

/-- C2 (witness): the amended round trip at a concrete state. -/
theorem c2_witness :
    jsTrim "udm" = "udm" ∧
    parseQParam (buildUrlParams "udm" ["UniFi", "airMAX"]) = "udm" ∧
    parseLines (buildUrlParams "udm" ["UniFi", "airMAX"]) =
      ["UniFi", "airMAX"] :=
  ⟨by decide,
   (c2_holds "udm" ["UniFi", "airMAX"] (by decide) (by decide)).1,
   (c2_holds "udm" ["UniFi", "airMAX"] (by decide) (by decide)).2⟩

/-! ## C4/C5: cache service -/

/-- C4: with the default time-to-live `CACHE_DURATION = 300000` ms, a
`fetchDevices` call strictly less than 300000 ms after the cache was
populated returns the cached snapshot without performing a fetch and leaves
the state unchanged; a call at or after 300000 ms performs a fetch, and on
success the processed result is stored with the fresh timestamp; after
`clearCache`, any call performs a fetch, likewise storing its result with a
fresh timestamp on success. -/
theorem c4_holds (devices : List Device) (t now : Int)
    (outcome : Except String JValue) :
    CACHE_DURATION = 300000 ∧
    (now - t < 300000 →
      fetchDevices ⟨some devices, some t⟩ now outcome =
        (⟨some devices, false, none⟩, ⟨some devices, some t⟩, false)) ∧
    (300000 ≤ now - t →
      (fetchDevices ⟨some devices, some t⟩ now outcome).2.2 = true ∧
      ∀ raw, outcome = Except.ok raw →
        fetchDevices ⟨some devices, some t⟩ now outcome =
          (⟨some (processDeviceResponse raw).devices, false, none⟩,
           ⟨some (processDeviceResponse raw).devices, some now⟩, true)) ∧
    (∀ state : ServiceState,
      (fetchDevices (clearCache state) now outcome).2.2 = true ∧
      ∀ raw, outcome = Except.ok raw →
        fetchDevices (clearCache state) now outcome =
          (⟨some (processDeviceResponse raw).devices, false, none⟩,
           ⟨some (processDeviceResponse raw).devices, some now⟩, true)) := by
  refine ⟨rfl, ?_, ?_, ?_⟩
  · intro h
    have hv : isCacheValid ⟨some devices, some t⟩ now = true := by
      simp [isCacheValid, CACHE_DURATION]; omega
    simp [fetchDevices, hv]
  · intro h
    have hv : isCacheValid ⟨some devices, some t⟩ now = false := by
      simp [isCacheValid, CACHE_DURATION]; omega
    constructor
    · cases outcome <;> simp [fetchDevices, hv]
    · rintro raw rfl
      simp [fetchDevices, hv]
  · intro state
    have hv : isCacheValid ⟨none, none⟩ now = false := rfl
    constructor
    · cases outcome <;> simp [fetchDevices, hv, clearCache]
    · rintro raw rfl
      simp [fetchDevices, hv, clearCache]

/-- C4 (witness): a cache populated at t = 0 is served unchanged at
t = 299999 without a fetch. -/
theorem c4_witness :
    ((299999 : Int) - 0 < 300000) ∧
    fetchDevices ⟨some ([] : List Device), some 0⟩ 299999
        (Except.error "boom") =
      (⟨some [], false, none⟩, ⟨some [], some 0⟩, false) :=
  ⟨by decide, (c4_holds [] 0 299999 (Except.error "boom")).2.1 (by decide)⟩

/-- C5: when the cache is not valid (so `fetchDevices` actually runs its
fetch) and the fetch fails, the service state is exactly what it was before
the call, the mapped error message is surfaced in the returned result with
no data, and a subsequent `getCachedDevices` observes the same cache as
before the failed call. -/
theorem c5_holds (state : ServiceState) (now : Int) (message : String)
    (hmiss : isCacheValid state now = false) :
    (fetchDevices state now (Except.error message)).2.1 = state ∧
    (fetchDevices state now (Except.error message)).2.2 = true ∧
    (fetchDevices state now (Except.error message)).1.error =
      some (getErrorMessage message) ∧
    (fetchDevices state now (Except.error message)).1.data = none ∧
    getCachedDevices ((fetchDevices state now (Except.error message)).2.1) now =
      getCachedDevices state now := by
  simp [fetchDevices, hmiss]

/-- C5 (witness): a failed fetch at t = 300000 over a cache populated at
t = 0 leaves the state untouched. -/
theorem c5_witness :
    isCacheValid ⟨some ([] : List Device), some 0⟩ 300000 = false ∧
    (fetchDevices ⟨some ([] : List Device), some 0⟩ 300000
        (Except.error "Failed to fetch")).2.1 =
      ⟨some [], some 0⟩ :=
  ⟨by decide,
   (c5_holds ⟨some [], some 0⟩ 300000 "Failed to fetch" (by decide)).1⟩

/-! ## C10: sanitized search path -/

/-- C10: the deployed search path sanitizes the query before matching
(`useDeviceSearch` pipes the query through `sanitizeSearchQuery`, which
truncates to 100 characters, strips HTML, removes the SQL keywords as whole
words case-insensitively, removes `..`, collapses wildcard runs, removes
control characters, and normalizes whitespace); consequently a query
consisting only of removed content — the single word `select`, also in
upper case or combined with other removed words — sanitizes to the empty
string, and `useDeviceSearch` returns every device. -/
theorem c10_holds :
    sanitizeSearchQuery "select" = "" ∧
    sanitizeSearchQuery "  DROP or SELECT  " = "" ∧
    ∀ devices : List Device, useDeviceSearch devices "select" = devices := by
  refine ⟨by decide, by decide, ?_⟩
  intro devices
  have h : sanitizeSearchQuery "select" = "" := by decide
  rw [useDeviceSearch, h, filterDevices]
  cases devices with
  | nil => rfl
  | cons d ds =>
    simp only [List.length_cons, Nat.succ_ne_zero, if_neg, if_false]
    exact List.filter_eq_self.mpr (fun a _ => rfl)

/-! ## C8: filter composition -/

theorem parseLinesParam_not_empty_mem : ∀ (o : Option String),
    "" ∉ parseLinesParam o
  | none => by simp [parseLinesParam]
  | some s => by
    intro h
    rw [parseLinesParam] at h
    have := (List.mem_filter.mp h).2
    simp at this

/-- C8: the composed filter applies the (sanitized) free-text search first
and the categorical stage to its result: with no selected category every
search-filtered record passes unchanged, and with a non-empty selection the
output is the search-filtered list restricted to the categorical predicate,
which holds of a record exactly when its line name is a member (exact string
equality) of the selected category list. -/
theorem c8_holds (devices : List Device) (query : String)
    (linesParam : Option String) :
    (parseLinesParam linesParam = [] →
      fullyFilteredDevices devices query (parseLinesParam linesParam) =
        useDeviceSearch devices query) ∧
    (parseLinesParam linesParam ≠ [] →
      fullyFilteredDevices devices query (parseLinesParam linesParam) =
        (useDeviceSearch devices query).filter
          (productLinePred (parseLinesParam linesParam)) ∧
      ∀ device : Device,
        productLinePred (parseLinesParam linesParam) device = true ↔
          ∃ line, device.line = some line ∧
            line.name ∈ parseLinesParam linesParam) := by
  constructor
  · intro h
    simp [fullyFilteredDevices, h]
  · intro h
    have hlen : (parseLinesParam linesParam).length ≠ 0 := by
      simpa [List.length_eq_zero] using h
    constructor
    · simp [fullyFilteredDevices, hlen]
    · intro device
      rw [productLinePred]
      cases hline : device.line with
      | none => simp
      | some line =>
        simp only [Bool.and_eq_true, decide_eq_true_eq, Option.some.injEq]
        constructor
        · rintro ⟨-, hmem⟩
          exact ⟨line, rfl, (List.elem_iff).mp hmem⟩
        · rintro ⟨l, rfl, hmem⟩
          refine ⟨?_, (List.elem_iff).mpr hmem⟩
          intro he
          exact parseLinesParam_not_empty_mem linesParam (he ▸ hmem)

/-- C8 (witness): the categorical stage applied to a concrete selection. -/
theorem c8_witness :
    parseLinesParam (some "UniFi") ≠ [] ∧
    fullyFilteredDevices [c8Dev] "" (parseLinesParam (some "UniFi")) =
      (useDeviceSearch [c8Dev] "").filter
        (productLinePred (parseLinesParam (some "UniFi"))) :=
  ⟨by decide, ((c8_holds [c8Dev] "" (some "UniFi")).2 (by decide)).1⟩

/-! ## C6/C7: autocomplete ranking -/

theorem tierSuggestions_cons (d : Device) (rest : List Device) (q : String)
    (t : MatchTier) :
    tierSuggestions (d :: rest) q t =
      if deviceName d ≠ "" ∧ bestMatch d q = some t
      then suggestionOf d :: tierSuggestions rest q t
      else tierSuggestions rest q t := by
  rw [tierSuggestions, tierSuggestions, List.filterMap_cons]
  by_cases h : deviceName d ≠ "" ∧ bestMatch d q = some t
  · simp only [if_pos h]
  · simp only [if_neg h]

theorem suggestLoop_cons (q : String) (d : Device) (rest : List Device)
    (seen : List String) :
    suggestLoop q (d :: rest) seen =
      if deviceName d = "" then suggestLoop q rest seen
      else
        match bestMatch d q with
        | none => suggestLoop q rest seen
        | some tier =>
          if seen.contains (jsToLower (deviceName d)) then
            suggestLoop q rest seen
          else
            let r := suggestLoop q rest (jsToLower (deviceName d) :: seen)
            match tier with
            | .exact => (suggestionOf d :: r.1, r.2.1, r.2.2)
            | .pfx => (r.1, suggestionOf d :: r.2.1, r.2.2)
            | .contains => (r.1, r.2.1, suggestionOf d :: r.2.2) := rfl

theorem suggestLoop_cons_skip (q : String) (d : Device) (rest : List Device)
    (seen : List String)
    (h : deviceName d = "" ∨ bestMatch d q = none ∨
      seen.contains (jsToLower (deviceName d)) = true) :
    suggestLoop q (d :: rest) seen = suggestLoop q rest seen := by
  rw [suggestLoop_cons]
  by_cases hname : deviceName d = ""
  · rw [if_pos hname]
  · rw [if_neg hname]
    cases hb : bestMatch d q with
    | none => rfl
    | some tier =>
      rcases h with h | h | h
      · exact absurd h hname
      · rw [h] at hb; cases hb
      · have hmem : jsToLower (deviceName d) ∈ seen := by simpa using h
        simp [hmem]

theorem suggestLoop_cons_exact (q : String) (d : Device) (rest : List Device)
    (seen : List String) (hname : deviceName d ≠ "")
    (hb : bestMatch d q = some MatchTier.exact)
    (hseen : seen.contains (jsToLower (deviceName d)) = false) :
    suggestLoop q (d :: rest) seen =
      (suggestionOf d ::
        (suggestLoop q rest (jsToLower (deviceName d) :: seen)).1,
       (suggestLoop q rest (jsToLower (deviceName d) :: seen)).2.1,
       (suggestLoop q rest (jsToLower (deviceName d) :: seen)).2.2) := by
  rw [suggestLoop_cons, if_neg hname, hb]
  have hmem : jsToLower (deviceName d) ∉ seen := by simpa using hseen
  simp [hmem]

theorem suggestLoop_cons_pfx (q : String) (d : Device) (rest : List Device)
    (seen : List String) (hname : deviceName d ≠ "")
    (hb : bestMatch d q = some MatchTier.pfx)
    (hseen : seen.contains (jsToLower (deviceName d)) = false) :
    suggestLoop q (d :: rest) seen =
      ((suggestLoop q rest (jsToLower (deviceName d) :: seen)).1,
       suggestionOf d ::
        (suggestLoop q rest (jsToLower (deviceName d) :: seen)).2.1,
       (suggestLoop q rest (jsToLower (deviceName d) :: seen)).2.2) := by
  rw [suggestLoop_cons, if_neg hname, hb]
  have hmem : jsToLower (deviceName d) ∉ seen := by simpa using hseen
  simp [hmem]

theorem suggestLoop_cons_contains (q : String) (d : Device)
    (rest : List Device) (seen : List String) (hname : deviceName d ≠ "")
    (hb : bestMatch d q = some MatchTier.contains)
    (hseen : seen.contains (jsToLower (deviceName d)) = false) :
    suggestLoop q (d :: rest) seen =
      ((suggestLoop q rest (jsToLower (deviceName d) :: seen)).1,
       (suggestLoop q rest (jsToLower (deviceName d) :: seen)).2.1,
       suggestionOf d ::
        (suggestLoop q rest (jsToLower (deviceName d) :: seen)).2.2) := by
  rw [suggestLoop_cons, if_neg hname, hb]
  have hmem : jsToLower (deviceName d) ∉ seen := by simpa using hseen
  simp [hmem]

theorem suggestLoop_sub (q : String) (ds : List Device) :
    ∀ seen : List String,
      List.Sublist (suggestLoop q ds seen).1
        (tierSuggestions ds q MatchTier.exact) ∧
      List.Sublist (suggestLoop q ds seen).2.1
        (tierSuggestions ds q MatchTier.pfx) ∧
      List.Sublist (suggestLoop q ds seen).2.2
        (tierSuggestions ds q MatchTier.contains) := by
  induction ds with
  | nil =>
    intro seen
    simp [suggestLoop, tierSuggestions]
  | cons d rest ih =>
    intro seen
    rw [tierSuggestions_cons, tierSuggestions_cons, tierSuggestions_cons]
    by_cases hname : deviceName d = ""
    · rw [suggestLoop_cons_skip q d rest seen (Or.inl hname)]
      simp only [hname, ne_eq, not_true_eq_false, false_and, if_false]
      exact ih seen
    · cases hb : bestMatch d q with
      | none =>
        rw [suggestLoop_cons_skip q d rest seen (Or.inr (Or.inl hb))]
        rw [if_neg (fun h => by cases h.2), if_neg (fun h => by cases h.2),
          if_neg (fun h => by cases h.2)]
        exact ih seen
      | some tier =>
        by_cases hseen : seen.contains (jsToLower (deviceName d)) = true
        · rw [suggestLoop_cons_skip q d rest seen (Or.inr (Or.inr hseen))]
          obtain ⟨h1, h2, h3⟩ := ih seen
          cases tier with
          | exact =>
            rw [if_pos ⟨hname, rfl⟩, if_neg (fun h => by simp at h),
              if_neg (fun h => by simp at h)]
            exact ⟨h1.cons _, h2, h3⟩
          | pfx =>
            rw [if_neg (fun h => by simp at h), if_pos ⟨hname, rfl⟩,
              if_neg (fun h => by simp at h)]
            exact ⟨h1, h2.cons _, h3⟩
          | contains =>
            rw [if_neg (fun h => by simp at h),
              if_neg (fun h => by simp at h), if_pos ⟨hname, rfl⟩]
            exact ⟨h1, h2, h3.cons _⟩
        · rw [Bool.not_eq_true] at hseen
          obtain ⟨h1, h2, h3⟩ := ih (jsToLower (deviceName d) :: seen)
          cases tier with
          | exact =>
            rw [suggestLoop_cons_exact q d rest seen hname hb hseen,
              if_pos ⟨hname, rfl⟩, if_neg (fun h => by simp at h),
              if_neg (fun h => by simp at h)]
            exact ⟨h1.cons₂ _, h2, h3⟩
          | pfx =>
            rw [suggestLoop_cons_pfx q d rest seen hname hb hseen,
              if_neg (fun h => by simp at h), if_pos ⟨hname, rfl⟩,
              if_neg (fun h => by simp at h)]
            exact ⟨h1, h2.cons₂ _, h3⟩
          | contains =>
            rw [suggestLoop_cons_contains q d rest seen hname hb hseen,
              if_neg (fun h => by simp at h),
              if_neg (fun h => by simp at h), if_pos ⟨hname, rfl⟩]
            exact ⟨h1, h2, h3.cons₂ _⟩

/-- C6 (amended): the output of `generateAutocompleteSuggestions` is the
truncation to 8 entries of a concatenation `exact ++ starts-with ++
contains`, where each block is a subsequence (hence in catalog order) of the
suggestions of the devices whose best match tier — over all searchable
fields, not the name alone — is that tier.  In particular every emitted
exact-tier suggestion appears strictly before every starts-with-tier one,
which appears strictly before every contains-tier one. -/
theorem c6_holds (devices : List Device) (query : String) :
    ∃ e p c,
      generateAutocompleteSuggestions devices query = ((e ++ p) ++ c).take 8 ∧
      List.Sublist e
        (tierSuggestions devices (jsToLower (jsTrim query))
          MatchTier.exact) ∧
      List.Sublist p
        (tierSuggestions devices (jsToLower (jsTrim query))
          MatchTier.pfx) ∧
      List.Sublist c
        (tierSuggestions devices (jsToLower (jsTrim query))
          MatchTier.contains) := by
  rw [generateAutocompleteSuggestions]
  by_cases h : (jsToLower (jsTrim query) = "" ||
      decide ((jsToLower (jsTrim query)).length < 2)) = true
  · refine ⟨[], [], [], ?_, List.nil_sublist _, List.nil_sublist _,
      List.nil_sublist _⟩
    rw [if_pos h]
    rfl
  · obtain ⟨h1, h2, h3⟩ := suggestLoop_sub (jsToLower (jsTrim query)) devices []
    refine ⟨_, _, _, ?_, h1, h2, h3⟩
    rw [if_neg h]

/-- C6 (counterexample): with the query `udm`, the record `c6DevExact`
(whose name UDM exactly equals the query case-insensitively) appears
strictly after the record `c6DevContains` (whose name XUDM merely contains
the query) in the suggestion output, because the latter's abbreviation is an
exact field match and catalog order puts it first — refuting the claim's
"name exactly equals ⇒ strictly before name merely contains". -/
theorem c6_counterexample :
    jsToLower (deviceName c6DevExact) = jsToLower (jsTrim "udm") ∧
    jsToLower (deviceName c6DevContains) ≠ jsToLower (jsTrim "udm") ∧
    jsIncludes (jsToLower (deviceName c6DevContains))
      (jsToLower (jsTrim "udm")) = true ∧
    generateAutocompleteSuggestions [c6DevContains, c6DevExact] "udm" =
      [⟨"XUDM", "UDM"⟩, ⟨"UDM", ""⟩] := by
  decide

theorem suggestLoop_names (q : String) (ds : List Device) :
    ∀ seen : List String,
      (∀ s ∈ ((suggestLoop q ds seen).1 ++ (suggestLoop q ds seen).2.1) ++
          (suggestLoop q ds seen).2.2, jsToLower s.text ∉ seen) ∧
      (((suggestLoop q ds seen).1 ++ (suggestLoop q ds seen).2.1) ++
          (suggestLoop q ds seen).2.2).Pairwise
        (fun a b => jsToLower a.text ≠ jsToLower b.text) := by
  induction ds with
  | nil =>
    intro seen
    simp [suggestLoop]
  | cons d rest ih =>
    intro seen
    by_cases hname : deviceName d = ""
    · rw [suggestLoop_cons_skip q d rest seen (Or.inl hname)]
      exact ih seen
    · cases hb : bestMatch d q with
      | none =>
        rw [suggestLoop_cons_skip q d rest seen (Or.inr (Or.inl hb))]
        exact ih seen
      | some tier =>
        by_cases hseen : seen.contains (jsToLower (deviceName d)) = true
        · rw [suggestLoop_cons_skip q d rest seen (Or.inr (Or.inr hseen))]
          exact ih seen
        · rw [Bool.not_eq_true] at hseen
          obtain ⟨hnotin, hpair⟩ := ih (jsToLower (deviceName d) :: seen)
          have htext : jsToLower (suggestionOf d).text =
              jsToLower (deviceName d) := rfl
          have hself : jsToLower (suggestionOf d).text ∉ seen := by
            rw [htext]
            intro hm
            have := List.elem_iff.mpr hm
            rw [show (List.elem (jsToLower (deviceName d)) seen) =
              seen.contains (jsToLower (deviceName d)) from rfl, hseen] at this
            cases this
          have hne : ∀ s, s ∈ ((suggestLoop q rest
                (jsToLower (deviceName d) :: seen)).1 ++
                (suggestLoop q rest (jsToLower (deviceName d) :: seen)).2.1) ++
                (suggestLoop q rest (jsToLower (deviceName d) :: seen)).2.2 →
              jsToLower (suggestionOf d).text ≠ jsToLower s.text := by
            intro s hs heq
            exact (hnotin s hs)
              (by rw [← heq, htext]; exact List.mem_cons_self _ _)
          have hrest : ∀ s, s ∈ ((suggestLoop q rest
                (jsToLower (deviceName d) :: seen)).1 ++
                (suggestLoop q rest (jsToLower (deviceName d) :: seen)).2.1) ++
                (suggestLoop q rest (jsToLower (deviceName d) :: seen)).2.2 →
              jsToLower s.text ∉ seen := by
            intro s hs hm
            exact (hnotin s hs) (List.mem_cons_of_mem _ hm)
          cases tier with
          | exact =>
            rw [suggestLoop_cons_exact q d rest seen hname hb hseen]
            constructor
            · intro s hs
              simp only [List.cons_append, List.mem_cons] at hs
              rcases hs with rfl | hs'
              · exact hself
              · exact hrest s hs'
            · simp only [List.cons_append, List.pairwise_cons]
              exact ⟨fun s hs => hne s hs, hpair⟩
          | pfx =>
            rw [suggestLoop_cons_pfx q d rest seen hname hb hseen]
            constructor
            · intro s hs
              simp only [List.mem_append, List.mem_cons] at hs
              rcases hs with (hs' | (rfl | hs')) | hs'
              · exact hrest s (by simp [hs'])
              · exact hself
              · exact hrest s (by simp [hs'])
              · exact hrest s (by simp [hs'])
            · have hassoc :
                  ((suggestLoop q rest (jsToLower (deviceName d) :: seen)).1 ++
                    (suggestionOf d :: (suggestLoop q rest
                      (jsToLower (deviceName d) :: seen)).2.1)) ++
                    (suggestLoop q rest
                      (jsToLower (deviceName d) :: seen)).2.2 =
                  (suggestLoop q rest (jsToLower (deviceName d) :: seen)).1 ++
                    (suggestionOf d :: ((suggestLoop q rest
                      (jsToLower (deviceName d) :: seen)).2.1 ++
                      (suggestLoop q rest
                        (jsToLower (deviceName d) :: seen)).2.2)) := by
                simp
              rw [hassoc, List.pairwise_middle (fun h => h.symm),
                List.pairwise_cons]
              refine ⟨?_, by simpa using hpair⟩
              intro s hs
              exact hne s (by simpa using hs)
          | contains =>
            rw [suggestLoop_cons_contains q d rest seen hname hb hseen]
            constructor
            · intro s hs
              simp only [List.mem_append, List.mem_cons] at hs
              rcases hs with (hs' | hs') | (rfl | hs')
              · exact hrest s (by simp [hs'])
              · exact hrest s (by simp [hs'])
              · exact hself
              · exact hrest s (by simp [hs'])
            · rw [List.pairwise_middle (fun h => h.symm), List.pairwise_cons]
              refine ⟨?_, by simpa using hpair⟩
              intro s hs
              exact hne s (by simpa using hs)

/-- C7: a query whose trimmed form is shorter than 2 characters yields no
suggestions; in every case the output has at most 8 entries and no two
output suggestions share the same lower-cased display text. -/
theorem c7_holds (devices : List Device) (query : String) :
    ((jsTrim query).length < 2 →
      generateAutocompleteSuggestions devices query = []) ∧
    (generateAutocompleteSuggestions devices query).length ≤ 8 ∧
    (generateAutocompleteSuggestions devices query).Pairwise
      (fun a b => jsToLower a.text ≠ jsToLower b.text) := by
  refine ⟨?_, ?_, ?_⟩
  · intro h
    have hlen : (jsToLower (jsTrim query)).length < 2 := by
      rw [jsToLower_length]; exact h
    rw [generateAutocompleteSuggestions]
    simp [hlen]
  · rw [generateAutocompleteSuggestions]
    by_cases h : (jsToLower (jsTrim query) = "" ||
        decide ((jsToLower (jsTrim query)).length < 2)) = true
    · simp [h]
    · rw [if_neg h, List.length_take]
      exact inf_le_left
  · rw [generateAutocompleteSuggestions]
    by_cases h : (jsToLower (jsTrim query) = "" ||
        decide ((jsToLower (jsTrim query)).length < 2)) = true
    · simp [h]
    · rw [if_neg h]
      exact List.Pairwise.sublist (List.take_sublist _ _)
        (suggestLoop_names (jsToLower (jsTrim query)) devices []).2

/-- C7 (witness): the short-query clause applied to a one-character query. -/
theorem c7_witness :
    (jsTrim " u ").length < 2 ∧
    generateAutocompleteSuggestions [c6DevExact] " u " = [] :=
  ⟨by decide, (c7_holds [c6DevExact] " u ").1 (by decide)⟩

/-! ## C3: per-record validation fallback -/

theorem parseDevice_obj_missing_id (fs : List (String × JValue))
    (hid : jGetField fs "id" = none) : parseDevice (JValue.obj fs) = none := by
  have hnone : reqStrField fs "id" = none := by
    unfold reqStrField
    rw [hid]
    rfl
  unfold parseDevice
  split
  · simp_all
  · rename_i v hco
    exact (hco fs rfl).elim

theorem mapM_option_none {α β : Type} (f : α → Option β) :
    ∀ (xs : List α) (i : Nat) (x : α),
      xs.get? i = some x → f x = none → xs.mapM f = none := by
  intro xs
  induction xs with
  | nil => intro i x h; cases h
  | cons y ys ih =>
    intro i x h hx
    cases i with
    | zero =>
      rw [List.get?_cons_zero, Option.some.injEq] at h
      subst h
      rw [List.mapM_cons, hx]
      rfl
    | succ j =>
      rw [List.get?_cons_succ] at h
      rw [List.mapM_cons, ih j x h hx]
      cases f y <;> rfl

theorem parseDeviceResponse_none (rfs : List (String × JValue))
    (devs : List JValue) (i : Nat) (x : JValue)
    (hdev : jGetField rfs "devices" = some (JValue.arr devs))
    (hx : devs.get? i = some x) (hnone : parseDevice x = none) :
    parseDeviceResponse (JValue.obj rfs) = none := by
  have h1 : devs.mapM parseDevice = none :=
    mapM_option_none parseDevice devs i x hx hnone
  have hobj : parseDeviceResponse (JValue.obj rfs) =
      match (match jGetField rfs "devices" with
             | some (JValue.arr xs) => xs.mapM parseDevice
             | _ => none),
            jGetField rfs "version" >>= asStr with
      | some devices, some version => some (devices, version)
      | _, _ => none := rfl
  rw [hobj, hdev]
  simp only [h1]

theorem safeGetArray_devices (rfs : List (String × JValue))
    (devs : List JValue)
    (hdev : jGetField rfs "devices" = some (JValue.arr devs)) :
    safeGetArray (JValue.obj rfs) "devices" = devs := by
  have hsplit : jsSplit "devices" '.' = ["devices"] := by decide
  rw [safeGetArray, safeGet, hsplit, safeGetWalk, hdev]
  rfl

theorem createSafeDevice_id_missing (fs : List (String × JValue))
    (hid : jGetField fs "id" = none) :
    (createSafeDevice (JValue.obj fs)).id = "unknown-device" := by
  rw [createSafeDevice, parseDevice_obj_missing_id fs hid]
  have hsplit : jsSplit "id" '.' = ["id"] := by decide
  simp only [safeGetString, safeGet, hsplit]
  rw [safeGetWalk, hid]

theorem validateDevicesLoop_get (xs : List JValue) :
    ∀ (k i : Nat) (x : JValue),
      xs.get? k = some x → parseDevice x = none →
      (validateDevicesLoop i xs).1.get? k = some (createSafeDevice x) ∧
      ("Device " ++ toString (i + k) ++ ": " ++ deviceValidationFailed) ∈
        (validateDevicesLoop i xs).2 := by
  induction xs with
  | nil => intro k i x h; cases h
  | cons y ys ih =>
    intro k i x h hnone
    cases k with
    | zero =>
      rw [List.get?_cons_zero, Option.some.injEq] at h
      subst h
      rw [validateDevicesLoop, hnone]
      constructor
      · rw [List.get?_cons_zero]
      · rw [Nat.add_zero]
        exact List.mem_cons_self _ _
    | succ j =>
      rw [List.get?_cons_succ] at h
      obtain ⟨ih1, ih2⟩ := ih j (i + 1) x h hnone
      have harith : i + 1 + j = i + (j + 1) := by omega
      rw [harith] at ih2
      rw [validateDevicesLoop]
      cases hy : parseDevice y with
      | some d => exact ⟨by rw [List.get?_cons_succ]; exact ih1, ih2⟩
      | none =>
        exact ⟨by rw [List.get?_cons_succ]; exact ih1,
          List.mem_cons_of_mem _ ih2⟩

/-- C3: for a payload whose `devices` array has at index `i` an object
record without an `id` key, whole-document validation fails, per-record
validation runs, and `processDeviceResponse` reports
`hasValidationErrors = true`, returns at index `i` a safe device whose
synthesized id is the non-empty `unknown-device`, and includes a validation
error naming index `i`. -/
theorem c3_holds (rfs : List (String × JValue)) (devs : List JValue)
    (i : Nat) (fs : List (String × JValue))
    (hdev : jGetField rfs "devices" = some (JValue.arr devs))
    (hi : devs.get? i = some (JValue.obj fs))
    (hid : jGetField fs "id" = none) :
    (processDeviceResponse (JValue.obj rfs)).hasValidationErrors = true ∧
    (∃ d, (processDeviceResponse (JValue.obj rfs)).devices.get? i = some d ∧
      d.id = "unknown-device" ∧ d.id ≠ "") ∧
    ("Device " ++ toString i ++ ": " ++ deviceValidationFailed) ∈
      (processDeviceResponse (JValue.obj rfs)).validationErrors := by
  have hpd : parseDevice (JValue.obj fs) = none :=
    parseDevice_obj_missing_id fs hid
  have hresp : parseDeviceResponse (JValue.obj rfs) = none :=
    parseDeviceResponse_none rfs devs i (JValue.obj fs) hdev hi hpd
  have harr : safeGetArray (JValue.obj rfs) "devices" = devs :=
    safeGetArray_devices rfs devs hdev
  obtain ⟨hget, hmem⟩ := validateDevicesLoop_get devs i 0 (JValue.obj fs) hi hpd
  rw [Nat.zero_add] at hmem
  rw [processDeviceResponse, hresp]
  simp only [harr]
  refine ⟨?_, ?_, hmem⟩
  · rw [decide_eq_true_eq]
    exact List.length_pos.mpr (List.ne_nil_of_mem hmem)
  · exact ⟨createSafeDevice (JValue.obj fs), hget,
      createSafeDevice_id_missing fs hid, by
        rw [createSafeDevice_id_missing fs hid]; decide⟩

/-- C3 (witness): the concrete payload whose single device record is the
empty object (no `id`). -/
theorem c3_witness :
    jGetField [("devices", JValue.arr [JValue.obj []])] "devices" =
      some (JValue.arr [JValue.obj []]) ∧
    ([JValue.obj []].get? 0 = some (JValue.obj [])) ∧
    jGetField ([] : List (String × JValue)) "id" = none ∧
    ((processDeviceResponse
        (JValue.obj [("devices", JValue.arr [JValue.obj []])])
      ).hasValidationErrors = true ∧
     (∃ d, (processDeviceResponse
        (JValue.obj [("devices", JValue.arr [JValue.obj []])])
      ).devices.get? 0 = some d ∧ d.id = "unknown-device" ∧ d.id ≠ "") ∧
     ("Device " ++ toString 0 ++ ": " ++ deviceValidationFailed) ∈
      (processDeviceResponse
        (JValue.obj [("devices", JValue.arr [JValue.obj []])])
      ).validationErrors) :=
  ⟨rfl, rfl, rfl,
   c3_holds [("devices", JValue.arr [JValue.obj []])] [JValue.obj []] 0 []
     rfl rfl rfl⟩

/-! ## C9: icon resolution selection -/

theorem foldl_nearerTo (p : Int) :
    ∀ (l : List (List Int)) (acc : List Int) (w0 : Int),
      acc.head? = some w0 → p ≤ w0 →
      (∀ r ∈ l, ∃ w, r.head? = some w ∧ p ≤ w) →
      (l.foldl (nearerTo p) acc ∈ acc :: l) ∧
      ∃ w, (l.foldl (nearerTo p) acc).head? = some w ∧ p ≤ w ∧ w ≤ w0 ∧
        ∀ r ∈ l, ∀ w2, r.head? = some w2 → w ≤ w2 := by
  intro l
  induction l with
  | nil =>
    intro acc w0 h hw0 _
    exact ⟨List.mem_cons_self _ _, w0, h, hw0, le_refl w0, by simp⟩
  | cons r t ih =>
    intro acc w0 hacc hw0 hall
    obtain ⟨wr, hwr, hpwr⟩ := hall r (List.mem_cons_self _ _)
    have hstep : nearerTo p acc r =
        if (wr - p).natAbs < (w0 - p).natAbs then r else acc := by
      rw [nearerTo, hwr, hacc]
    rw [List.foldl_cons]
    by_cases hlt : (wr - p).natAbs < (w0 - p).natAbs
    · have hwlt : wr < w0 := by omega
      rw [hstep, if_pos hlt]
      obtain ⟨hmem, w, hw, hpw, hle, hmin⟩ :=
        ih r wr hwr hpwr (fun s hs => hall s (List.mem_cons_of_mem _ hs))
      refine ⟨?_, w, hw, hpw, by omega, ?_⟩
      · rcases List.mem_cons.mp hmem with h | h
        · rw [h]
          exact List.mem_cons_of_mem _ (List.mem_cons_self _ _)
        · exact List.mem_cons_of_mem _ (List.mem_cons_of_mem _ h)
      · intro s hs w2 hs2
        rcases List.mem_cons.mp hs with rfl | hs'
        · rw [hwr] at hs2
          have hw2 : wr = w2 := Option.some.inj hs2
          omega
        · exact hmin s hs' w2 hs2
    · have hwge : w0 ≤ wr := by omega
      rw [hstep, if_neg hlt]
      obtain ⟨hmem, w, hw, hpw, hle, hmin⟩ :=
        ih acc w0 hacc hw0 (fun s hs => hall s (List.mem_cons_of_mem _ hs))
      refine ⟨?_, w, hw, hpw, hle, ?_⟩
      · rcases List.mem_cons.mp hmem with h | h
        · rw [h]
          exact List.mem_cons_self _ _
        · exact List.mem_cons_of_mem _ (List.mem_cons_of_mem _ h)
      · intro s hs w2 hs2
        rcases List.mem_cons.mp hs with rfl | hs'
        · rw [hwr] at hs2
          have hw2 : wr = w2 := Option.some.inj hs2
          omega
        · exact hmin s hs' w2 hs2

theorem largerPred_prop (p : Int) (s : List Int)
    (hs : (match s.head? with
           | some w => decide (p ≤ w)
           | none => false) = true) :
    ∃ w, s.head? = some w ∧ p ≤ w := by
  cases hh : s.head? with
  | none => rw [hh] at hs; cases hs
  | some w =>
    rw [hh] at hs
    exact ⟨w, rfl, by simpa using hs⟩

theorem selectResolution_exact (res : List (List Int)) (ctx : IconContext)
    (h : ∃ r ∈ res, r.head? = some (preferredWidth ctx)) :
    (selectResolution res ctx).head? = some (preferredWidth ctx) ∧
    selectResolution res ctx ∈ res := by
  obtain ⟨r, hr, hh⟩ := h
  have hsome : (res.find?
      (fun r => r.head? == some (preferredWidth ctx))).isSome = true := by
    rw [List.find?_isSome]
    exact ⟨r, hr, by rw [hh]; simp⟩
  obtain ⟨r0, hr0⟩ := Option.isSome_iff_exists.mp hsome
  have hp := List.find?_some hr0
  have hm := List.mem_of_find?_eq_some hr0
  unfold selectResolution
  simp only [hr0]
  exact ⟨by simpa using hp, hm⟩

theorem selectResolution_larger (res : List (List Int)) (ctx : IconContext)
    (hnone : ∀ r ∈ res, ¬ r.head? = some (preferredWidth ctx))
    (hex : ∃ r ∈ res, ∃ w, r.head? = some w ∧ preferredWidth ctx ≤ w) :
    selectResolution res ctx ∈ res ∧
    ∃ w, (selectResolution res ctx).head? = some w ∧
      preferredWidth ctx ≤ w ∧
      ∀ r ∈ res, ∀ w2, r.head? = some w2 → preferredWidth ctx ≤ w2 →
        w ≤ w2 := by
  have hfind : res.find?
      (fun r => r.head? == some (preferredWidth ctx)) = none := by
    rw [List.find?_eq_none]
    intro x hx
    simpa using hnone x hx
  obtain ⟨r, hr, w, hwr, hpw⟩ := hex
  have hrL : r ∈ res.filter (fun r =>
      match r.head? with
      | some w => decide (preferredWidth ctx ≤ w)
      | none => false) :=
    List.mem_filter.mpr ⟨hr, by rw [hwr]; simpa using hpw⟩
  unfold selectResolution
  simp only [hfind]
  cases hLc : res.filter (fun r =>
      match r.head? with
      | some w => decide (preferredWidth ctx ≤ w)
      | none => false) with
  | nil => rw [hLc] at hrL; cases hrL
  | cons first rest =>
    simp only [hLc]
    have hfirstL : first ∈ res.filter (fun r =>
        match r.head? with
        | some w => decide (preferredWidth ctx ≤ w)
        | none => false) := by
      rw [hLc]; exact List.mem_cons_self _ _
    obtain ⟨hfirstRes, hfirstPred⟩ := List.mem_filter.mp hfirstL
    obtain ⟨w0, hw0, hpw0⟩ := largerPred_prop _ first hfirstPred
    have hrestProp : ∀ s ∈ rest, ∃ ws, s.head? = some ws ∧
        preferredWidth ctx ≤ ws := by
      intro s hs
      have hsL : s ∈ res.filter (fun r =>
          match r.head? with
          | some w => decide (preferredWidth ctx ≤ w)
          | none => false) := by
        rw [hLc]; exact List.mem_cons_of_mem _ hs
      exact largerPred_prop _ s (List.mem_filter.mp hsL).2
    obtain ⟨hmem, wf, hwf, hpwf, hlef, hminf⟩ :=
      foldl_nearerTo (preferredWidth ctx) rest first w0 hw0 hpw0 hrestProp
    constructor
    · have : rest.foldl (nearerTo (preferredWidth ctx)) first ∈
          res.filter (fun r =>
            match r.head? with
            | some w => decide (preferredWidth ctx ≤ w)
            | none => false) := by
        rw [hLc]; exact hmem
      exact (List.mem_filter.mp this).1
    · refine ⟨wf, hwf, hpwf, ?_⟩
      intro s hs w2 hs2 hpw2
      have hsL : s ∈ res.filter (fun r =>
          match r.head? with
          | some w => decide (preferredWidth ctx ≤ w)
          | none => false) :=
        List.mem_filter.mpr ⟨hs, by rw [hs2]; simpa using hpw2⟩
      rw [hLc] at hsL
      rcases List.mem_cons.mp hsL with rfl | hs'
      · rw [hw0] at hs2
        have : w0 = w2 := Option.some.inj hs2
        omega
      · exact hminf s hs' w2 hs2

theorem selectResolution_fallback (res : List (List Int)) (ctx : IconContext)
    (hno2 : ∀ r ∈ res, ∀ w, r.head? = some w → w < preferredWidth ctx) :
    selectResolution res ctx = (res.getLast?).getD [32, 32] := by
  have hfind : res.find?
      (fun r => r.head? == some (preferredWidth ctx)) = none := by
    rw [List.find?_eq_none]
    intro x hx
    cases hh : x.head? with
    | none => simp [hh]
    | some w =>
      have := hno2 x hx w hh
      simp only [hh, beq_iff_eq, Option.some.injEq]
      omega
  have hfilter : res.filter (fun r =>
      match r.head? with
      | some w => decide (preferredWidth ctx ≤ w)
      | none => false) = [] := by
    rw [List.filter_eq_nil_iff]
    intro a ha
    cases hh : a.head? with
    | none => simp [hh]
    | some w =>
      have := hno2 a ha w hh
      simp only [hh, decide_eq_true_eq]
      omega
  unfold selectResolution
  simp only [hfind, hfilter]

/-- C9 (counterexample): the small and large contexts share the preferred
width 128 (so the three contexts do not map to distinct preferred widths),
and a device whose declared widths distinguish the contexts receives the
same icon URL for small and large. -/
theorem c9_counterexample :
    preferredWidth IconContext.small = 128 ∧
    preferredWidth IconContext.medium = 64 ∧
    preferredWidth IconContext.large = 128 ∧
    preferredWidth IconContext.small = preferredWidth IconContext.large ∧
    getIconUrl c9Dev IconContext.small = getIconUrl c9Dev IconContext.large := by
  decide

/-- C9 (amended): for a device with glyph-icon data (non-empty declared
resolution list) and no product photo, the icon URL embeds the
`width x height` pair chosen by `selectResolution`: the first exact width
match when one exists; otherwise, if some declared width is at or above the
context's preferred width, a member of the declared list whose width is at
or above the preferred width and minimal among such; otherwise the last
declared resolution.  The preferred widths are 128 (small), 64 (medium) and
128 (large) — small and large coincide. -/
theorem c9_holds (device : Device) (context : IconContext)
    (ic : DeviceIcon) (himg : imagesDefault device = "")
    (hic : device.icon = some ic) (hres : ic.resolutions ≠ []) :
    getIconUrl device context =
      "https://static.ui.com/fingerprint/ui/icons/" ++ ic.id ++ "_"
        ++ showWidth (selectResolution ic.resolutions context).head? ++ "x"
        ++ showWidth ((selectResolution ic.resolutions context).get? 1)
        ++ ".png" ∧
    ((∃ r ∈ ic.resolutions, r.head? = some (preferredWidth context)) →
      (selectResolution ic.resolutions context).head? =
        some (preferredWidth context) ∧
      selectResolution ic.resolutions context ∈ ic.resolutions) ∧
    ((∀ r ∈ ic.resolutions, ¬ r.head? = some (preferredWidth context)) →
      (∃ r ∈ ic.resolutions, ∃ w, r.head? = some w ∧
        preferredWidth context ≤ w) →
      selectResolution ic.resolutions context ∈ ic.resolutions ∧
      ∃ w, (selectResolution ic.resolutions context).head? = some w ∧
        preferredWidth context ≤ w ∧
        ∀ r ∈ ic.resolutions, ∀ w2, r.head? = some w2 →
          preferredWidth context ≤ w2 → w ≤ w2) ∧
    ((∀ r ∈ ic.resolutions, ∀ w, r.head? = some w →
        w < preferredWidth context) →
      selectResolution ic.resolutions context =
        (ic.resolutions.getLast?).getD [32, 32]) ∧
    preferredWidth IconContext.small = 128 ∧
    preferredWidth IconContext.medium = 64 ∧
    preferredWidth IconContext.large = 128 := by
  refine ⟨?_, fun h => selectResolution_exact ic.resolutions context h,
    fun h1 h2 => selectResolution_larger ic.resolutions context h1 h2,
    fun h => selectResolution_fallback ic.resolutions context h,
    rfl, rfl, rfl⟩
  have h1 : ¬ imagesDefault device ≠ "" := fun h => h himg
  have h2 : iconResolutions device = ic.resolutions := by
    simp [iconResolutions, hic]
  have h3 : iconId device = ic.id := by
    simp [iconId, hic]
  have h4 : (iconResolutions device).length ≠ 0 := by
    rw [h2]
    exact fun h0 => hres (List.length_eq_zero.mp h0)
  rw [getIconUrl, if_neg h1, if_pos h4, h2, h3]

/-- C9 (witness): the amended theorem applied to a device whose icon
declares widths 64 and 256, in the small context. -/
theorem c9_witness :
    imagesDefault c9DevW = "" ∧ c9DevW.icon = some c9icon ∧
    c9icon.resolutions ≠ [] ∧
    getIconUrl c9DevW IconContext.small =
      "https://static.ui.com/fingerprint/ui/icons/" ++ c9icon.id ++ "_"
        ++ showWidth (selectResolution c9icon.resolutions
            IconContext.small).head? ++ "x"
        ++ showWidth ((selectResolution c9icon.resolutions
            IconContext.small).get? 1) ++ ".png" :=
  ⟨rfl, rfl, by decide,
   (c9_holds c9DevW IconContext.small c9icon rfl rfl (by decide)).1⟩

end UbiquitiViewer
